import Mathlib

/-!
Shallow embedding of the lento Presto/Trino streaming client
(src/lib/client.js, src/lib/flatten-page.js (QueryStream), src/unnamed/part_004
(deserialize, PrestoError)) and proofs about its spec claims.

JSON values are modelled by `Value`; JS objects and Maps by ordered
association lists with overwrite-in-place assignment (`setKey`), matching
JS property-assignment and `Map.set` semantics.
-/

namespace Lento

/-- Value models a JSON value as it appears in a Presto response cell, plus
`date`, which models a JS `Date` instant tagged by the ISO string it was
constructed from. -/
inductive Value where
  | null
  | str (s : String)
  | num (n : Int)
  | bool (b : Bool)
  | date (iso : String)
  deriving Repr, DecidableEq

/-- ColumnMeta models one entry of `result.columns`: `{ name, type, ... }`. -/
structure ColumnMeta where
  name : String
  type : String
  deriving Repr, DecidableEq

/-- replaceFirstChar models JS `String.prototype.replace` with a
single-character string pattern: only the first occurrence is replaced. -/
def replaceFirstChar (pat rep : Char) : List Char → List Char
  | [] => []
  | c :: cs => if c = pat then rep :: cs else c :: replaceFirstChar pat rep cs

/-- timestampToIso models `value.replace(' ', 'T') + 'Z'` from
src/unnamed/part_004 (deserialize). -/
def timestampToIso (s : String) : String :=
  String.mk (replaceFirstChar ' ' 'T' s.toList) ++ "Z"

/-- deserialize embeds `module.exports = function (column, value)` of
src/unnamed/part_004: null passes through; a value in a column of type
"timestamp" becomes `new Date(value.replace(' ', 'T') + 'Z')`; anything else
passes through unchanged. The code calls `.replace` on the value, so a
timestamp cell is assumed to hold a string (as the protocol guarantees);
non-string values in a timestamp column are returned unchanged here. -/
def deserialize (column : ColumnMeta) (value : Value) : Value :=
  match value with
  | Value.null => Value.null
  | v =>
    if column.type = "timestamp" then
      match v with
      | Value.str s => Value.date (timestampToIso s)
      | other => other
    else v

/-- setKey models JS property assignment `obj[k] = v` (and `Map.set`) on an
ordered association list: an existing key keeps its position and gets the new
value, a new key is appended. -/
def setKey {α : Type} : List (String × α) → String → α → List (String × α)
  | [], k, v => [(k, v)]
  | (k', v') :: rest, k, v =>
    if k' = k then (k, v) :: rest else (k', v') :: setKey rest k v

/-- deleteKey models `Map.delete(k)`. -/
def deleteKey {α : Type} : List (String × α) → String → List (String × α)
  | [], _ => []
  | (k', v') :: rest, k =>
    if k' = k then rest else (k', v') :: deleteKey rest k

/-- lookupKey models JS property access `obj[k]` / `Map.get(k)`, returning
`none` for a missing key. -/
def lookupKey {α : Type} : List (String × α) → String → Option α
  | [], _ => none
  | (k', v') :: rest, k => if k' = k then some v' else lookupKey rest k

/-- Row is the emitted unit of the stream in row mode: an array of values
(`rowFormat == 'array'`) or an object keyed by column name (the default). -/
inductive Row where
  | arr (vs : List Value)
  | obj (kvs : List (String × Value))
  deriving Repr, DecidableEq

/-- deserializeRow embeds the in-place loop of `QueryStream._land`
(src/lib/flatten-page.js): `for i < columns.length, row[i] =
deserialize(columns[i], row[i])`. Cells beyond the column count are left
unchanged, as in the source. -/
def deserializeRow : List ColumnMeta → List Value → List Value
  | c :: cs, v :: vs => deserialize c v :: deserializeRow cs vs
  | [], vs => vs
  | _ :: _, [] => []

/-- objectRowAux folds `obj[this._columns[i].name] = row[i]` over the
column/cell pairs, with JS object-assignment (overwrite) semantics. -/
def objectRowAux (obj : List (String × Value)) :
    List (ColumnMeta × Value) → List (String × Value)
  | [] => obj
  | (c, v) :: rest => objectRowAux (setKey obj c.name (deserialize c v)) rest

/-- objectRow builds the object-mode row of `QueryStream._land`: an object
whose entry for `columns[i].name` is the deserialized cell `row[i]`. -/
def objectRow (columns : List ColumnMeta) (row : List Value) :
    List (String × Value) :=
  objectRowAux [] (columns.zip row)

/-- processRow is the per-row transformation of `QueryStream._land`,
selected by `this._asObjects` (`rowFormat !== 'array'`). -/
def processRow (asObjects : Bool) (columns : List ColumnMeta)
    (row : List Value) : Row :=
  if asObjects then Row.obj (objectRow columns row)
  else Row.arr (deserializeRow columns row)

/-- processPage transforms one response's `result.data` into the rows that
`QueryStream._land` stores in `this._buffer`. -/
def processPage (asObjects : Bool) (columns : List ColumnMeta)
    (data : List (List Value)) : List Row :=
  data.map (processRow asObjects columns)

/-! URL model. The source uses Node's WHATWG `new URL(...)`; `Url` and
`parseUrl` model it for hierarchical `scheme://host[:port]path?query` URLs
(lowercase scheme/host, no userinfo or fragment, which the protocol never
produces). Strings that are not of this shape parse to `none`, where
`new URL` throws a `TypeError`. -/

/-- Url holds the components of a parsed absolute URL, named as in Node:
`protocol` includes the trailing colon, `port` is `none` when absent,
`search` includes the leading question mark or is empty. -/
structure Url where
  protocol : String
  hostname : String
  port : Option Nat
  pathname : String
  search : String
  deriving Repr, DecidableEq

/-- splitAtChar splits a character list at the first occurrence of `sep`,
returning `none` when `sep` does not occur. -/
def splitAtChar (sep : Char) : List Char → Option (List Char × List Char)
  | [] => none
  | c :: cs =>
    if c = sep then some ([], cs)
    else
      match splitAtChar sep cs with
      | none => none
      | some (l, r) => some (c :: l, r)

/-- digitsToNat reads a decimal digit list as a natural number. -/
def digitsToNat (ds : List Char) : Nat :=
  ds.foldl (fun acc c => acc * 10 + (c.toNat - 48)) 0

/-- parseUrl models `new URL(s)` for absolute hierarchical URLs: it requires
an alphabetic scheme, `//`, a non-empty host, an optional all-digit port, and
splits the remainder into pathname (defaulted to `/`) and search. -/
def parseUrl (s : String) : Option Url :=
  match splitAtChar ':' s.toList with
  | none => none
  | some (scheme, rest) =>
    if scheme.isEmpty || !(scheme.all Char.isAlpha) then none
    else
      match rest with
      | '/' :: '/' :: rest2 =>
        let auth := rest2.takeWhile (fun c => c != '/' && c != '?')
        let pathRest := rest2.dropWhile (fun c => c != '/' && c != '?')
        let hostPort : Option (List Char × Option Nat) :=
          match splitAtChar ':' auth with
          | none => some (auth, none)
          | some (h, p) =>
            if !p.isEmpty && p.all Char.isDigit then some (h, some (digitsToNat p))
            else none
        match hostPort with
        | none => none
        | some (host, port) =>
          if host.isEmpty then none
          else
            let pathname := pathRest.takeWhile (fun c => c != '?')
            let search := pathRest.dropWhile (fun c => c != '?')
            some { protocol := String.mk scheme ++ ":",
                   hostname := String.mk host,
                   port := port,
                   pathname := if pathname.isEmpty then "/" else String.mk pathname,
                   search := String.mk search }
      | _ => none

/-! Request descriptors and the request builder (`Client.request`,
src/lib/client.js). -/

/-- ReqOpts models the request-options object handed to `Client.request`:
`none` in an `Option` field models an absent property. -/
structure ReqOpts where
  method : String
  path : String
  hostname : Option String
  port : Option Nat
  protocol : Option String
  body : Option String
  json : Bool
  expectStatusCode : Nat
  deriving Repr, DecidableEq

/-- initialRequestOptions is the `this._requestOptions` that
`QueryStream._reset` installs: `POST /v1/statement` with the SQL as body. -/
def initialRequestOptions (sql : String) : ReqOpts :=
  { method := "POST", path := "/v1/statement", hostname := none, port := none,
    protocol := none, body := some sql, json := true, expectStatusCode := 200 }

/-- buildContinuation is the `this._requestOptions` that `QueryStream._land`
builds from a parsed `result.nextUri`: a GET for the URL's path plus query on
the URL's host, with the port set only when the URL carries one, and no
protocol (the source comment: follow host redirects, but don't switch
protocols). -/
def buildContinuation (u : Url) : ReqOpts :=
  { method := "GET", path := u.pathname ++ u.search, hostname := some u.hostname,
    port := u.port, protocol := none, body := none, json := true,
    expectStatusCode := 200 }

/-- deleteRequest is the request that `QueryStream._cancel` sends:
`DELETE /v1/query/` followed by the query id, expecting 204. -/
def deleteRequest (queryId : String) : ReqOpts :=
  { method := "DELETE", path := "/v1/query/" ++ queryId, hostname := none,
    port := none, protocol := none, body := none, json := false,
    expectStatusCode := 204 }

/-- ClientCfg is the immutable client configuration of the `Client`
constructor (src/lib/client.js), after defaulting. -/
structure ClientCfg where
  hostname : String
  port : Nat
  protocol : String
  catalog : Option String
  schema : Option String
  timezone : Option String
  user : Option String
  parametricDatetime : Bool
  headers : List (String × String)
  maxRetries : Nat
  deriving Repr, DecidableEq

/-- defaultCfg is a client constructed with no options: localhost:8080 over
http, ten retries. -/
def defaultCfg : ClientCfg :=
  { hostname := "localhost", port := 8080, protocol := "http:", catalog := none,
    schema := none, timezone := none, user := none, parametricDatetime := false,
    headers := [], maxRetries := 10 }

/-- applyRequestDefaults embeds the start of `Client.request`: absent
hostname, port and protocol are filled from the client (the port check is
`'port' in opts`, a presence check). -/
def applyRequestDefaults (c : ClientCfg) (o : ReqOpts) : ReqOpts :=
  { o with hostname := some (o.hostname.getD c.hostname),
           port := some (o.port.getD c.port),
           protocol := some (o.protocol.getD c.protocol) }

/-! Session store (`Client._session`, a JS `Map`, updated in
`Client._makeRequest` from response headers and serialized in
`Client.request`). -/

/-- SessionUpdate is one successful session-changing response, reduced to
what `Client._makeRequest` reads from it: the `x-presto-set-session` header
of a `SET SESSION` response, or the `x-presto-clear-session` header of a
`RESET SESSION` response. -/
inductive SessionUpdate where
  | set (kv : String)
  | clear (key : String)
  deriving Repr, DecidableEq

/-- sessionKeyOf is `kv.split('=')[0]`: the part before the first equals
sign, or the whole string when there is none. -/
def sessionKeyOf (kv : String) : String :=
  String.mk (kv.toList.takeWhile (fun c => c != '='))

/-- applySessionUpdate embeds the session mutation of `Client._makeRequest`:
`this._session.set(kv.split('=')[0], kv)` for SET SESSION and
`this._session.delete(key)` for RESET SESSION. -/
def applySessionUpdate (m : List (String × String)) :
    SessionUpdate → List (String × String)
  | SessionUpdate.set kv => setKey m (sessionKeyOf kv) kv
  | SessionUpdate.clear k => deleteKey m k

/-- applySessionUpdates folds a sequence of successful session responses
into the client's session map, oldest first. -/
def applySessionUpdates (m : List (String × String))
    (us : List SessionUpdate) : List (String × String) :=
  us.foldl applySessionUpdate m

/-- serializeSession is the observable `x-presto-session` header value:
`Client.request` attaches `Array.from(this._session.values()).join(',')`
when the map is non-empty and nothing otherwise. -/
def serializeSession (m : List (String × String)) : Option String :=
  if m.isEmpty then none
  else some (String.intercalate "," (m.map Prod.snd))

/-! Header assembly of `Client.request` (src/lib/client.js): protocol
headers first, then the session header on POST, then fixed headers, then
caller-supplied headers (client-level, then per-request) lowercased and
merged last-wins, skipping `x-presto-session` on non-POST requests. -/

/-- baseHeaders builds the protocol headers of `Client.request` in source
order, before caller-supplied headers are merged in. -/
def baseHeaders (c : ClientCfg) (method : String) (json : Bool)
    (session : List (String × String)) : List (String × String) :=
  let h : List (String × String) := []
  let h := match c.catalog with
    | some v => setKey h "x-presto-catalog" v
    | none => h
  let h := match c.schema with
    | some v => setKey h "x-presto-schema" v
    | none => h
  let h := match c.timezone with
    | some v => setKey h "x-presto-time-zone" v
    | none => h
  let h := if c.parametricDatetime then
      setKey h "x-presto-client-capabilities" "PARAMETRIC_DATETIME"
    else h
  let h := match c.user with
    | some v => setKey h "x-presto-user" v
    | none => h
  let h := if json then setKey h "accept" "application/json" else h
  let h := if method = "POST" && !session.isEmpty then
      setKey h "x-presto-session" (String.intercalate "," (session.map Prod.snd))
    else h
  let h := setKey h "x-presto-source" "lento"
  let h := setKey h "user-agent" "lento 2.4.2"
  let h := setKey h "connection" "keep-alive"
  setKey h "accept-encoding" "gzip, deflate, identity"

/-- mergeCallerHeaders embeds the caller-header loop of `Client.request`:
each key is lowercased and assigned last-wins, except that a key matching
`/^x-presto-session$/i` is skipped when the method is not POST. -/
def mergeCallerHeaders (method : String) (h : List (String × String))
    (src : List (String × String)) : List (String × String) :=
  src.foldl
    (fun acc kv =>
      if kv.1.toLower = "x-presto-session" ∧ method ≠ "POST" then acc
      else setKey acc kv.1.toLower kv.2)
    h

/-- buildHeaders is the full outgoing header set of `Client.request`:
protocol headers, then client-level caller headers, then per-request caller
headers. -/
def buildHeaders (c : ClientCfg) (method : String) (json : Bool)
    (session : List (String × String)) (reqHeaders : List (String × String)) :
    List (String × String) :=
  mergeCallerHeaders method
    (mergeCallerHeaders method (baseHeaders c method json session) c.headers)
    reqHeaders

/-! Transport (`Client._makeRequest`, src/lib/client.js). One call executes
one HTTP exchange and retries retryable failures with a fresh `Backoff`
created per `Client.request` call. The network is modelled as a script of
per-dispatch outcomes consumed in order. -/

/-- Err models a JS error as `Client._makeRequest` inspects it: an optional
string `code` (such as ECONNREFUSED, or a Presto errorName), an optional
numeric `statusCode` (set by http-errors), and a message. -/
structure Err where
  code : Option String
  statusCode : Option Nat
  message : String
  deriving Repr, DecidableEq

/-- PrestoErrJ is the `error` object of a 200 JSON body. -/
structure PrestoErrJ where
  message : String
  errorName : String
  errorType : String
  deriving Repr, DecidableEq

/-- prestoError embeds the PrestoError constructor (src/unnamed/part_004):
`code = errorName`, message `errorName + ': ' + message`. -/
def prestoError (e : PrestoErrJ) : Err :=
  { code := some e.errorName, statusCode := none,
    message := e.errorName ++ ": " ++ e.message }

/-- etimedoutError is the error synthesized by the `req.setTimeout` handler
of `Client._makeRequest`: `new Error('ETIMEDOUT')` with `code` ETIMEDOUT and
no status code. -/
def etimedoutError : Err :=
  { code := some "ETIMEDOUT", statusCode := none, message := "ETIMEDOUT" }

/-- serviceUnavailableError is `herr(503)`: status code 503, no `code`. -/
def serviceUnavailableError : Err :=
  { code := none, statusCode := some 503, message := "Service Unavailable" }

/-- econnrefusedError is a socket connection-refused error. -/
def econnrefusedError : Err :=
  { code := some "ECONNREFUSED", statusCode := none,
    message := "connect ECONNREFUSED" }

/-- retryable embeds `function retryable (err)` of src/lib/client.js:
`err.code === 'ECONNREFUSED' || err.code === 'ECONNRESET' ||
err.statusCode === 503`. -/
def retryable (e : Err) : Bool :=
  e.code == some "ECONNREFUSED" || e.code == some "ECONNRESET" ||
    e.statusCode == some 503

/-- RespResult is the parsed 200 JSON body `{id?, columns?, data?, nextUri?,
error?}`; an absent or empty `data` is the empty list. -/
structure RespResult where
  id : Option String
  columns : Option (List ColumnMeta)
  data : List (List Value)
  nextUri : Option String
  error : Option PrestoErrJ
  deriving Repr, DecidableEq

/-- Wire is the network's outcome for one physical dispatch: a decoded 200
JSON body, a failure (HTTP 503 and socket errors are both delivered to
`abort` as an `Err`), or an HTTP 307 carrying the `location` header. -/
inductive Wire where
  | ok (r : RespResult)
  | fail (e : Err)
  | redirect (location : Option String)
  deriving Repr, DecidableEq

/-- TResult is what `Client._makeRequest` finally hands its callback: a
result, an error, or nothing yet because the network script ran out. -/
inductive TResult where
  | pending
  | err (e : Err)
  | ok (r : RespResult)
  deriving Repr, DecidableEq

/-- TransportOut bundles the callback outcome of one `Client.request` call
with its observable counts: physical dispatches made, `retry` events
emitted, 307 redirects followed, and the unconsumed network script. -/
structure TransportOut where
  result : TResult
  requests : Nat
  retries : Nat
  redirects : Nat
  rest : List Wire
  deriving Repr, DecidableEq

/-- redirectMissingLocationError is the plain Error thrown for a 307 with
no `location` header; it has no code and no status code. -/
def redirectMissingLocationError : Err :=
  { code := none
    statusCode := none
    message := "HTTP 307 redirect is missing \"location\" header" }

/-- redirectInvalidLocationError is the plain Error for an unparseable
`location` header. -/
def redirectInvalidLocationError (l : String) : Err :=
  { code := none
    statusCode := none
    message := "HTTP 307 redirect has invalid \"location\" header: " ++ l }

/-- redirectProtocolSwitchError is the plain Error for a 307 whose location
carries a different scheme. -/
def redirectProtocolSwitchError : Err :=
  { code := none
    statusCode := none
    message := "HTTP 307 redirect protocol switch is not allowed" }

/-- redirectOutcome embeds the HTTP 307 branch of `Client._makeRequest`: a
missing `location` header, an unparseable one, or one whose scheme differs
from the request's `opts.protocol` is fatal; otherwise the parsed URL is
followed. -/
def redirectOutcome (protocol : String) (location : Option String) :
    Except Err Url :=
  match location with
  | none => Except.error redirectMissingLocationError
  | some l =>
    match parseUrl l with
    | none => Except.error (redirectInvalidLocationError l)
    | some u =>
      if protocol ≠ u.protocol then
        Except.error redirectProtocolSwitchError
      else Except.ok u

/-- makeRequest embeds `Client._makeRequest`: a failure is retried while
`backoff.attempts < maxRetries` and `retryable(err)` hold (each retry emits
one `retry` event and increments the attempt count); a valid same-protocol
307 re-dispatches against the redirect target with the same backoff —
consuming no retry budget and emitting no `retry` event — while a bad 307
goes through `abort` like any other failure; a 200 body whose `error` field
is set reaches the callback as a PrestoError; any other outcome reaches the
callback directly. `protocol` is the request's `opts.protocol`. -/
def makeRequest (protocol : String) (maxRetries : Nat) (attempts : Nat) :
    List Wire → TransportOut
  | [] =>
    { result := TResult.pending, requests := 0, retries := 0, redirects := 0,
      rest := [] }
  | Wire.ok r :: rest =>
    match r.error with
    | some pe =>
      { result := TResult.err (prestoError pe), requests := 1, retries := 0,
        redirects := 0, rest := rest }
    | none =>
      { result := TResult.ok r, requests := 1, retries := 0, redirects := 0,
        rest := rest }
  | Wire.fail e :: rest =>
    if attempts < maxRetries ∧ retryable e = true then
      let out := makeRequest protocol maxRetries (attempts + 1) rest
      { out with requests := out.requests + 1, retries := out.retries + 1 }
    else
      { result := TResult.err e, requests := 1, retries := 0, redirects := 0,
        rest := rest }
  | Wire.redirect location :: rest =>
    match redirectOutcome protocol location with
    | Except.error e =>
      if attempts < maxRetries ∧ retryable e = true then
        let out := makeRequest protocol maxRetries (attempts + 1) rest
        { out with requests := out.requests + 1, retries := out.retries + 1 }
      else
        { result := TResult.err e, requests := 1, retries := 0,
          redirects := 0, rest := rest }
    | Except.ok _ =>
      let out := makeRequest protocol maxRetries attempts rest
      { out with requests := out.requests + 1, redirects := out.redirects + 1 }

/-! Query engine (`QueryStream`, src/lib/flatten-page.js). -/

/-- EngineState is the per-statement handle of `QueryStream`: the private
fields that `_reset` initializes, plus the prepared request options. -/
structure EngineState where
  queryId : Option String
  columns : Option (List ColumnMeta)
  prevPath : Option String
  buffer : List Row
  received : Bool
  upstreamFinished : Bool
  errored : Bool
  inflight : Bool
  requestOptions : ReqOpts
  backoffAttempts : Nat
  deriving Repr, DecidableEq

/-- initialState is the handle right after the `QueryStream` constructor ran
`this._reset(false)`. -/
def initialState (sql : String) : EngineState :=
  { queryId := none, columns := none, prevPath := none, buffer := [],
    received := false, upstreamFinished := false, errored := false,
    inflight := false, requestOptions := initialRequestOptions sql,
    backoffAttempts := 0 }

/-- resetState is `QueryStream._reset` during a query-level retry: every
handle field is cleared back to the initial POST, while the query-level
backoff (created once in the constructor) keeps its attempt count. -/
def resetState (sql : String) (s : EngineState) : EngineState :=
  { initialState sql with backoffAttempts := s.backoffAttempts }

/-- retryErrorCode is `RETRY_ERROR_CODES.has(code)` of
src/lib/flatten-page.js. -/
def retryErrorCode (c : Option String) : Bool :=
  c == some "SERVER_STARTING_UP" || c == some "HIVE_METASTORE_ERROR" ||
    c == some "TOO_MANY_REQUESTS_FAILED" || c == some "PAGE_TRANSPORT_TIMEOUT"

/-- backoffDuration is backo's `duration()`: `min(ms * factor^attempts, max)`
with the default factor 2 and no jitter. -/
def backoffDuration (ms mx : Nat) (attempts : Nat) : Nat :=
  Nat.min (ms * 2 ^ attempts) mx

/-- ErrLand is the decision of the error branch of `QueryStream._land`:
either schedule a query-level retry after a delay, or mark the stream
errored and destroy it with the error. -/
inductive ErrLand where
  | retry (delay : Nat) (s : EngineState)
  | errored (e : Err) (s : EngineState)
  deriving Repr, DecidableEq

/-- landErr embeds the error branch of `QueryStream._land`: the query is
retried iff no data was received, the error code is in RETRY_ERROR_CODES and
the query-level backoff still has budget (`attempts < maxRetries`); the
delay is the query-level backoff duration (min 1 s, max 300 s); otherwise
`_errored` is set and the stream is destroyed with the error. -/
def landErr (sql : String) (maxRetries : Nat) (s : EngineState) (e : Err) :
    ErrLand :=
  if s.received = false ∧ retryErrorCode e.code = true ∧
      s.backoffAttempts < maxRetries then
    ErrLand.retry (backoffDuration 1000 300000 s.backoffAttempts)
      { resetState sql s with backoffAttempts := s.backoffAttempts + 1 }
  else
    ErrLand.errored e { s with errored := true }

/-- landData embeds the `result.data` branch of `QueryStream._land`: a
non-empty page is deserialized against `this._columns` and becomes the
buffer, setting `received`; when no columns were ever received the source
dereferences `this._columns.length` on undefined and throws. -/
def landData (asObjects : Bool) (s : EngineState) (r : RespResult) :
    Except String EngineState :=
  if r.data.isEmpty then Except.ok s
  else
    match s.columns with
    | none => Except.error "TypeError: this._columns is undefined"
    | some cols =>
      Except.ok { s with received := true,
                         buffer := processPage asObjects cols r.data }

/-- landNext embeds the `result.nextUri` branch of `QueryStream._land`: no
nextUri marks the upstream finished; otherwise the source calls
`new URL(result.nextUri)` with no try/catch, so an unparseable nextUri
throws out of the response callback; a parseable one stores `previousPath`
and installs the continuation GET. -/
def landNext (s : EngineState) (r : RespResult) : Except String EngineState :=
  match r.nextUri with
  | none => Except.ok { s with upstreamFinished := true }
  | some raw =>
    match parseUrl raw with
    | none => Except.error ("Invalid URL: " ++ raw)
    | some u =>
      Except.ok { s with prevPath := some s.requestOptions.path,
                         requestOptions := buildContinuation u }

/-- adoptMeta embeds the start of the success path of `QueryStream._land`:
adopt `result.id` (emitting `id` and maybe `info`) when no query id is known
yet, and adopt `result.columns` (emitting `columns`) when no columns are
known yet. -/
def adoptMeta (s : EngineState) (r : RespResult) : EngineState :=
  let s1 := if s.queryId.isNone && r.id.isSome then { s with queryId := r.id }
            else s
  if s1.columns.isNone && r.columns.isSome then { s1 with columns := r.columns }
  else s1

/-- landOk embeds the success path of `QueryStream._land` in source order:
adopt `result.id` and `result.columns` when not yet known, buffer the
deserialized page, then handle `result.nextUri`. -/
def landOk (asObjects : Bool) (s : EngineState) (r : RespResult) :
    Except String EngineState := do
  let s3 ← landData asObjects (adoptMeta s r) r
  landNext s3 r

/-- DestroyBehavior is what `QueryStream._destroy` does at destroy time:
close without cancelling, emit `cancel` and send the DELETE for a known
query id, or swap the completion handler to cancel once the in-flight
response (maybe) delivers an id. -/
inductive DestroyBehavior where
  | close
  | cancelWith (queryId : String)
  | awaitResponse
  deriving Repr, DecidableEq

/-- destroyBehavior embeds `QueryStream._destroy`: a finished or errored
upstream closes without cancellation; otherwise a known query id is
cancelled; otherwise an in-flight request is awaited; otherwise close. -/
def destroyBehavior (s : EngineState) : DestroyBehavior :=
  if s.upstreamFinished || s.errored then DestroyBehavior.close
  else
    match s.queryId with
    | some qid => DestroyBehavior.cancelWith qid
    | none =>
      if s.inflight then DestroyBehavior.awaitResponse else DestroyBehavior.close

/-- emitsCancel tells whether a destroy behavior emits the `cancel` event:
`QueryStream._cancel` emits it exactly when it has a query id. -/
def emitsCancel : DestroyBehavior → Bool
  | DestroyBehavior.cancelWith _ => true
  | _ => false

/-- sendsDelete tells whether a destroy behavior sends a
`DELETE /v1/query/` request; like the `cancel` event, it happens exactly
when `_cancel` has a query id. -/
def sendsDelete : DestroyBehavior → Bool
  | DestroyBehavior.cancelWith _ => true
  | _ => false

/-- RunEnd is how a whole statement run ends: clean completion, an error
surfaced to the stream, an uncaught synchronous exception, or the network
script running out. -/
inductive RunEnd where
  | finished
  | failed (e : Err)
  | crashed (msg : String)
  | pending
  deriving Repr, DecidableEq

/-- RunOut is the observable outcome of driving one statement: how it ended,
the physical request count, the `retry` event count, the query-level retry
count, the count of nextUri continuations followed, the count of 307
redirects followed, the rows delivered downstream in order, the
ok-responses landed during the final attempt, and the final handle. -/
structure RunOut where
  ending : RunEnd
  requests : Nat
  retryEvents : Nat
  queryRetries : Nat
  continuations : Nat
  redirects : Nat
  emitted : List Row
  landed : List RespResult
  final : EngineState
  deriving Repr, DecidableEq

/-- run drives one statement to its end against a network script, with the
consumer always pulling: each step is one `Client.request` call (with its
own transport retry and redirect loop), then `QueryStream._land`; a drained
buffer triggers either the end of the stream (`upstreamFinished`), the next
continuation, a query-level restart, or the terminal error. `protocol` is
the statement's scheme (neither redirects nor continuations switch it) and
`fuel` bounds the number of `Client.request` calls. -/
def run (asObjects : Bool) (sql protocol : String) (maxRetries : Nat) :
    Nat → EngineState → List Wire → RunOut
  | 0, s, _ =>
    { ending := RunEnd.pending, requests := 0, retryEvents := 0,
      queryRetries := 0, continuations := 0, redirects := 0, emitted := [],
      landed := [], final := s }
  | fuel + 1, s, env =>
    let t := makeRequest protocol maxRetries 0 env
    match t.result with
    | TResult.pending =>
      { ending := RunEnd.pending, requests := t.requests,
        retryEvents := t.retries, queryRetries := 0, continuations := 0,
        redirects := t.redirects, emitted := [], landed := [], final := s }
    | TResult.err e =>
      match landErr sql maxRetries s e with
      | ErrLand.errored e2 s2 =>
        { ending := RunEnd.failed e2, requests := t.requests,
          retryEvents := t.retries, queryRetries := 0, continuations := 0,
          redirects := t.redirects, emitted := [], landed := [], final := s2 }
      | ErrLand.retry _ s2 =>
        let out := run asObjects sql protocol maxRetries fuel s2 t.rest
        { out with requests := out.requests + t.requests,
                   retryEvents := out.retryEvents + t.retries,
                   queryRetries := out.queryRetries + 1,
                   redirects := out.redirects + t.redirects }
    | TResult.ok r =>
      match landOk asObjects s r with
      | Except.error msg =>
        { ending := RunEnd.crashed msg, requests := t.requests,
          retryEvents := t.retries, queryRetries := 0, continuations := 0,
          redirects := t.redirects, emitted := [], landed := [], final := s }
      | Except.ok s2 =>
        let page := s2.buffer
        let s3 := { s2 with buffer := [] }
        if s3.upstreamFinished then
          { ending := RunEnd.finished, requests := t.requests,
            retryEvents := t.retries, queryRetries := 0, continuations := 0,
            redirects := t.redirects, emitted := page, landed := [r],
            final := s3 }
        else
          let out := run asObjects sql protocol maxRetries fuel s3 t.rest
          { out with requests := out.requests + t.requests,
                     retryEvents := out.retryEvents + t.retries,
                     continuations := out.continuations + 1,
                     redirects := out.redirects + t.redirects,
                     emitted := page ++ out.emitted,
                     landed := r :: out.landed }

/-! Stream options (`Client.createPageStream` / `Client.createRowStream` and
the `QueryStream` constructor). -/

/-- StreamOpts models the caller's options object for a page or row stream;
`none` is an absent property. -/
structure StreamOpts where
  highWaterMark : Option Nat
  pageSize : Option Int
  rowFormat : Option String
  paging : Option Bool
  deriving Repr, DecidableEq

/-- rowStreamOpts embeds `Client.createRowStream`:
`Object.assign({}, opts, { paging: false, highWaterMark: 0 })`. -/
def rowStreamOpts (o : StreamOpts) : StreamOpts :=
  { o with paging := some false, highWaterMark := some 0 }

/-- StreamConfig is the configuration the `QueryStream` constructor derives
from its options. -/
structure StreamConfig where
  asObjects : Bool
  paging : Bool
  pageSize : Int
  highWaterMark : Nat
  deriving Repr, DecidableEq

/-- queryStreamConfig embeds the `QueryStream` constructor:
`highWaterMark: opts.highWaterMark || 0`, `rowFormat !== 'array'`,
`paging !== false`, `pageSize != null ? pageSize : 500`. -/
def queryStreamConfig (o : StreamOpts) : StreamConfig :=
  { asObjects := o.rowFormat != some "array",
    paging := o.paging != some false,
    pageSize := o.pageSize.getD 500,
    highWaterMark := o.highWaterMark.getD 0 }

/-! Session property helpers (`Client.set` / `Client.reset`,
src/lib/client.js). Both run a query and then validate the rows and the
session map inside the callback. -/

/-- firstRowResult reads `rows[0].result` from the callback's row list. -/
def firstRowResult (rows : List (List (String × Value))) : Option Value :=
  match rows with
  | [] => none
  | row :: _ => lookupKey row "result"

/-- setCallback embeds the response validation of `Client.set`: after a
successful HTTP exchange it fails with 'Failed to set session property'
unless exactly one row carries `result === true`, then with 'Did not receive
x-presto-set-session' unless the session map now holds the key, and only
then succeeds (`none` means the callback gets no error). -/
def setCallback (rows : List (List (String × Value))) (hasKey : Bool) :
    Option String :=
  if rows.length ≠ 1 ∨ firstRowResult rows ≠ some (Value.bool true) then
    some "Failed to set session property"
  else if hasKey = false then
    some "Did not receive x-presto-set-session"
  else none

/-- resetCallback embeds the response validation of `Client.reset`,
symmetric to `setCallback` but requiring the key to be gone from the session
map. -/
def resetCallback (rows : List (List (String × Value))) (hasKey : Bool) :
    Option String :=
  if rows.length ≠ 1 ∨ firstRowResult rows ≠ some (Value.bool true) then
    some "Failed to reset session property"
  else if hasKey = true then
    some "Did not receive x-presto-clear-session"
  else none

/-! Spec-side definitions, written from the words of the specification for
the refinement claims; each is compared against the source-derived
definitions above. -/

/-- specDeserialize restates §4.4 of the spec: a non-null value in a column
of type "timestamp" is parsed as an instant after replacing the first space
with 'T' and appending 'Z'; null and all other values pass through
unchanged. -/
def specDeserialize (columnType : String) (v : Value) : Value :=
  match v with
  | Value.null => Value.null
  | Value.str s =>
    if columnType = "timestamp" then Value.date (timestampToIso s)
    else Value.str s
  | other => other

/-- specRowArray restates the array-mode row of the spec: the row's values,
each deserialized against its column. -/
def specRowArray (columns : List ColumnMeta) (row : List Value) : List Value :=
  List.zipWith (fun c v => specDeserialize c.type v) columns row

/-- specRowObject restates the object-mode row of the spec: an object
mapping each column's name to the deserialized value at that position. -/
def specRowObject (columns : List ColumnMeta) (row : List Value) :
    List (String × Value) :=
  (columns.zip row).foldl
    (fun obj cv => setKey obj cv.1.name (specDeserialize cv.1.type cv.2)) []

/-- specRow is the emitted row the spec describes, for either row format. -/
def specRow (asObjects : Bool) (columns : List ColumnMeta)
    (row : List Value) : Row :=
  if asObjects then Row.obj (specRowObject columns row)
  else Row.arr (specRowArray columns row)

/-- lastEffect is the spec-side reading of a session-update history for one
key: `some (some kv)` when the last update touching the key set it to the
exact string `kv`, `some none` when the last was a reset, `none` when the
key was never touched. -/
def lastEffect (k : String) : List SessionUpdate → Option (Option String)
  | [] => none
  | u :: us =>
    match lastEffect k us with
    | some r => some r
    | none =>
      match u with
      | SessionUpdate.set kv =>
        if sessionKeyOf kv = k then some (some kv) else none
      | SessionUpdate.clear k2 =>
        if k2 = k then some none else none

/-! Helper lemmas about the association-list model. -/

theorem lookupKey_setKey {α : Type} (m : List (String × α)) (k' k : String)
    (v : α) :
    lookupKey (setKey m k' v) k = if k' = k then some v else lookupKey m k := by
  induction m with
  | nil => simp [setKey, lookupKey]
  | cons hd tl ih =>
    obtain ⟨k0, v0⟩ := hd
    by_cases h0 : k0 = k'
    · subst h0
      by_cases h1 : k0 = k <;> simp [setKey, lookupKey, h1]
    · simp only [setKey, if_neg h0, lookupKey, ih]
      by_cases h1 : k0 = k <;> by_cases h2 : k' = k <;> simp_all

theorem lookupKey_deleteKey_ne {α : Type} (m : List (String × α))
    (k' k : String) (h : k' ≠ k) :
    lookupKey (deleteKey m k') k = lookupKey m k := by
  induction m with
  | nil => rfl
  | cons hd tl ih =>
    obtain ⟨k0, v0⟩ := hd
    by_cases h0 : k0 = k'
    · subst h0
      simp [deleteKey, lookupKey, h]
    · simp only [deleteKey, if_neg h0, lookupKey, ih]

theorem lookupKey_eq_none_of_not_mem {α : Type} (m : List (String × α))
    (k : String) (h : k ∉ m.map Prod.fst) : lookupKey m k = none := by
  induction m with
  | nil => rfl
  | cons hd tl ih =>
    obtain ⟨k0, v0⟩ := hd
    simp only [List.map_cons, List.mem_cons, not_or] at h
    simp only [lookupKey, if_neg (fun he : k0 = k => h.1 he.symm), ih h.2]

theorem lookupKey_deleteKey_self {α : Type} (m : List (String × α))
    (k : String) (hnd : (m.map Prod.fst).Nodup) :
    lookupKey (deleteKey m k) k = none := by
  induction m with
  | nil => rfl
  | cons hd tl ih =>
    obtain ⟨k0, v0⟩ := hd
    simp only [List.map_cons, List.nodup_cons] at hnd
    by_cases h0 : k0 = k
    · subst h0
      simp only [deleteKey, if_pos rfl]
      exact lookupKey_eq_none_of_not_mem tl k0 hnd.1
    · simp only [deleteKey, if_neg h0, lookupKey, if_neg h0, ih hnd.2]

theorem map_fst_setKey_mem {α : Type} (m : List (String × α)) (k : String)
    (v : α) (h : k ∈ m.map Prod.fst) :
    (setKey m k v).map Prod.fst = m.map Prod.fst := by
  induction m with
  | nil => simp at h
  | cons hd tl ih =>
    obtain ⟨k0, v0⟩ := hd
    by_cases h0 : k0 = k
    · subst h0
      simp [setKey]
    · have hk : k ∈ tl.map Prod.fst := by
        rw [List.map_cons, List.mem_cons] at h
        rcases h with h1 | h1
        · exact absurd h1.symm h0
        · exact h1
      simp only [setKey, if_neg h0, List.map_cons, ih hk]

theorem map_fst_setKey_not_mem {α : Type} (m : List (String × α)) (k : String)
    (v : α) (h : k ∉ m.map Prod.fst) :
    (setKey m k v).map Prod.fst = m.map Prod.fst ++ [k] := by
  induction m with
  | nil => simp [setKey]
  | cons hd tl ih =>
    obtain ⟨k0, v0⟩ := hd
    simp only [List.map_cons, List.mem_cons, not_or] at h
    simp only [setKey, if_neg (fun he : k0 = k => h.1 he.symm), List.map_cons,
      ih h.2, List.cons_append]

theorem mem_map_fst_setKey {α : Type} (m : List (String × α)) (k' k : String)
    (v : α) :
    k ∈ (setKey m k' v).map Prod.fst ↔ k ∈ m.map Prod.fst ∨ k = k' := by
  by_cases h : k' ∈ m.map Prod.fst
  · rw [map_fst_setKey_mem m k' v h]
    constructor
    · exact fun hk => Or.inl hk
    · rintro (hk | hk)
      · exact hk
      · rwa [hk]
  · rw [map_fst_setKey_not_mem m k' v h]
    simp [List.mem_append]

theorem map_fst_deleteKey_sublist {α : Type} (m : List (String × α))
    (k : String) :
    ((deleteKey m k).map Prod.fst).Sublist (m.map Prod.fst) := by
  induction m with
  | nil => simp [deleteKey]
  | cons hd tl ih =>
    obtain ⟨k0, v0⟩ := hd
    by_cases h0 : k0 = k
    · simp only [deleteKey, if_pos h0, List.map_cons]
      exact List.sublist_cons_self _ _
    · simp only [deleteKey, if_neg h0, List.map_cons]
      exact ih.cons₂ _

theorem nodup_setKey {α : Type} (m : List (String × α)) (k : String) (v : α)
    (h : (m.map Prod.fst).Nodup) : ((setKey m k v).map Prod.fst).Nodup := by
  by_cases hm : k ∈ m.map Prod.fst
  · rwa [map_fst_setKey_mem m k v hm]
  · rw [map_fst_setKey_not_mem m k v hm]
    refine List.Nodup.append h (List.nodup_singleton k) ?_
    intro a ha hb
    rw [List.mem_singleton] at hb
    subst hb
    exact hm ha

theorem nodup_deleteKey {α : Type} (m : List (String × α)) (k : String)
    (h : (m.map Prod.fst).Nodup) : ((deleteKey m k).map Prod.fst).Nodup :=
  (map_fst_deleteKey_sublist m k).nodup h

theorem lookupKey_of_mem {α : Type} (m : List (String × α)) (k : String)
    (v : α) (hnd : (m.map Prod.fst).Nodup) (h : (k, v) ∈ m) :
    lookupKey m k = some v := by
  induction m with
  | nil => simp at h
  | cons hd tl ih =>
    obtain ⟨k0, v0⟩ := hd
    simp only [List.map_cons, List.nodup_cons] at hnd
    rcases List.mem_cons.mp h with h | h
    · cases h
      simp [lookupKey]
    · have hne : k0 ≠ k := by
        intro he
        subst he
        exact hnd.1 (List.mem_map.mpr ⟨(k0, v), h, rfl⟩)
      simp only [lookupKey, if_neg hne]
      exact ih hnd.2 h

/-! Inversion lemmas for the landing functions. -/

theorem exceptBind_ok {α β γ : Type} (m : Except α β) (f : β → Except α γ)
    (c : γ) : (m >>= f) = Except.ok c ↔ ∃ b, m = Except.ok b ∧ f b = Except.ok c := by
  cases m with
  | error e => simp [Except.bind, Bind.bind]
  | ok b => simp [Except.bind, Bind.bind]

theorem adoptMeta_buffer (s : EngineState) (r : RespResult) :
    (adoptMeta s r).buffer = s.buffer := by
  simp only [adoptMeta]
  split <;> split <;> rfl

theorem adoptMeta_received (s : EngineState) (r : RespResult) :
    (adoptMeta s r).received = s.received := by
  simp only [adoptMeta]
  split <;> split <;> rfl

theorem adoptMeta_upstreamFinished (s : EngineState) (r : RespResult) :
    (adoptMeta s r).upstreamFinished = s.upstreamFinished := by
  simp only [adoptMeta]
  split <;> split <;> rfl

theorem adoptMeta_requestOptions (s : EngineState) (r : RespResult) :
    (adoptMeta s r).requestOptions = s.requestOptions := by
  simp only [adoptMeta]
  split <;> split <;> rfl

theorem adoptMeta_errored (s : EngineState) (r : RespResult) :
    (adoptMeta s r).errored = s.errored := by
  simp only [adoptMeta]
  split <;> split <;> rfl

theorem adoptMeta_columns_some (s : EngineState) (r : RespResult)
    (c : List ColumnMeta) (h : s.columns = some c) :
    (adoptMeta s r).columns = some c := by
  simp only [adoptMeta]
  split
  · split
    · simp_all
    · simpa using h
  · split
    · simp_all
    · exact h

theorem landData_ok_cases (asObjects : Bool) (s : EngineState)
    (r : RespResult) (s2 : EngineState)
    (h : landData asObjects s r = Except.ok s2) :
    (r.data = [] ∧ s2 = s) ∨
      (∃ cols, s.columns = some cols ∧
        s2 = { s with received := true,
                      buffer := processPage asObjects cols r.data }) := by
  unfold landData at h
  split at h
  · left
    refine ⟨List.isEmpty_iff.mp (by assumption), ?_⟩
    exact (Except.ok.injEq .. ▸ h).symm
  · split at h
    · exact absurd h (by simp)
    · right
      refine ⟨_, by assumption, ?_⟩
      exact (Except.ok.injEq .. ▸ h).symm

theorem landNext_ok_cases (s : EngineState) (r : RespResult)
    (s2 : EngineState) (h : landNext s r = Except.ok s2) :
    (r.nextUri = none ∧ s2 = { s with upstreamFinished := true }) ∨
      (∃ raw u, r.nextUri = some raw ∧ parseUrl raw = some u ∧
        s2 = { s with prevPath := some s.requestOptions.path,
                      requestOptions := buildContinuation u }) := by
  unfold landNext at h
  split at h
  · left
    exact ⟨by assumption, (Except.ok.injEq .. ▸ h).symm⟩
  · rename_i raw hraw
    cases hu : parseUrl raw with
    | none => rw [hu] at h; exact absurd h (by simp)
    | some u =>
      rw [hu] at h
      right
      exact ⟨raw, u, by assumption, hu, (Except.ok.injEq .. ▸ h).symm⟩

theorem landOk_ok_elim (asObjects : Bool) (s : EngineState) (r : RespResult)
    (s2 : EngineState) (h : landOk asObjects s r = Except.ok s2) :
    ∃ s3, landData asObjects (adoptMeta s r) r = Except.ok s3 ∧
      landNext s3 r = Except.ok s2 := by
  unfold landOk at h
  exact (exceptBind_ok _ _ _).mp h

theorem landOk_received_mono (asObjects : Bool) (s : EngineState)
    (r : RespResult) (s2 : EngineState)
    (h : landOk asObjects s r = Except.ok s2) (hr : s.received = true) :
    s2.received = true := by
  obtain ⟨s3, hd, hn⟩ := landOk_ok_elim asObjects s r s2 h
  have h3 : s3.received = true := by
    rcases landData_ok_cases asObjects _ r s3 hd with ⟨_, he⟩ | ⟨cols, _, he⟩
    · rw [he, adoptMeta_received, hr]
    · rw [he]
  rcases landNext_ok_cases s3 r s2 hn with ⟨_, he⟩ | ⟨raw, u, _, _, he⟩ <;>
    rw [he] <;> exact h3

theorem landOk_columns_mono (asObjects : Bool) (s : EngineState)
    (r : RespResult) (s2 : EngineState) (c : List ColumnMeta)
    (h : landOk asObjects s r = Except.ok s2) (hc : s.columns = some c) :
    s2.columns = some c := by
  obtain ⟨s3, hd, hn⟩ := landOk_ok_elim asObjects s r s2 h
  have h3 : s3.columns = some c := by
    rcases landData_ok_cases asObjects _ r s3 hd with ⟨_, he⟩ | ⟨cols, _, he⟩
    · rw [he]
      exact adoptMeta_columns_some s r c hc
    · rw [he]
      exact adoptMeta_columns_some s r c hc
  rcases landNext_ok_cases s3 r s2 hn with ⟨_, he⟩ | ⟨raw, u, _, _, he⟩ <;>
    rw [he] <;> exact h3

theorem landOk_buffer_cases (asObjects : Bool) (s : EngineState)
    (r : RespResult) (s2 : EngineState)
    (h : landOk asObjects s r = Except.ok s2) (hbuf : s.buffer = []) :
    (r.data = [] ∧ s2.buffer = []) ∨
      (∃ cols, s2.columns = some cols ∧
        s2.buffer = processPage asObjects cols r.data ∧ s2.received = true) := by
  obtain ⟨s3, hd, hn⟩ := landOk_ok_elim asObjects s r s2 h
  have hbn : s2.buffer = s3.buffer ∧ s2.columns = s3.columns ∧
      s2.received = s3.received := by
    rcases landNext_ok_cases s3 r s2 hn with ⟨_, he⟩ | ⟨raw, u, _, _, he⟩ <;>
      rw [he] <;> exact ⟨rfl, rfl, rfl⟩
  rcases landData_ok_cases asObjects _ r s3 hd with ⟨hde, he⟩ | ⟨cols, hc, he⟩
  · left
    refine ⟨hde, ?_⟩
    rw [hbn.1, he, adoptMeta_buffer, hbuf]
  · right
    refine ⟨cols, ?_, ?_, ?_⟩
    · rw [hbn.2.1, he]
      exact hc
    · rw [hbn.1, he]
    · rw [hbn.2.2, he]

theorem adoptMeta_backoffAttempts (s : EngineState) (r : RespResult) :
    (adoptMeta s r).backoffAttempts = s.backoffAttempts := by
  simp only [adoptMeta]
  split <;> split <;> rfl

theorem landOk_backoffAttempts (asObjects : Bool) (s : EngineState)
    (r : RespResult) (s2 : EngineState)
    (h : landOk asObjects s r = Except.ok s2) :
    s2.backoffAttempts = s.backoffAttempts := by
  obtain ⟨s3, hd, hn⟩ := landOk_ok_elim asObjects s r s2 h
  have h3 : s3.backoffAttempts = s.backoffAttempts := by
    rcases landData_ok_cases asObjects _ r s3 hd with ⟨_, he⟩ | ⟨cols, _, he⟩ <;>
      rw [he] <;> exact adoptMeta_backoffAttempts s r
  rcases landNext_ok_cases s3 r s2 hn with ⟨_, he⟩ | ⟨raw, u, _, _, he⟩ <;>
    rw [he] <;> exact h3

theorem landOk_finished_of_no_nextUri (asObjects : Bool) (s : EngineState)
    (r : RespResult) (s2 : EngineState)
    (h : landOk asObjects s r = Except.ok s2) (hn : r.nextUri = none) :
    s2.upstreamFinished = true := by
  obtain ⟨s3, _, hx⟩ := landOk_ok_elim asObjects s r s2 h
  rcases landNext_ok_cases s3 r s2 hx with ⟨_, he⟩ | ⟨raw, u, hraw, _, _⟩
  · rw [he]
  · rw [hn] at hraw
    exact absurd hraw (by simp)

/-- Decidable equality for `Except`, used to evaluate the model on concrete
inputs. -/
instance {α β : Type} [DecidableEq α] [DecidableEq β] :
    DecidableEq (Except α β) := fun x y =>
  match x, y with
  | Except.error a, Except.error b =>
    if h : a = b then isTrue (by rw [h])
    else isFalse (by intro hc; cases hc; exact h rfl)
  | Except.error _, Except.ok _ => isFalse (by intro hc; cases hc)
  | Except.ok _, Except.error _ => isFalse (by intro hc; cases hc)
  | Except.ok a, Except.ok b =>
    if h : a = b then isTrue (by rw [h])
    else isFalse (by intro hc; cases hc; exact h rfl)

/-! Claim C3. -/

/-- invalidNextUriResult is the response of the repository's own test
'catches invalid nextUri': a 200 body with `nextUri: 'foo'`. -/
def invalidNextUriResult : RespResult :=
  { id := some "q1", columns := none, data := [], nextUri := some "foo",
    error := none }

/-- C3 (code_bug evidence): on a 200 response whose nextUri is not a
parseable absolute URL, `QueryStream._land` calls `new URL(result.nextUri)`
with no try/catch, so a TypeError escapes the response callback; the
statement does not fail with the fatal stream error "Presto sent invalid
nextUri: foo" that the spec (and the repository's test 'catches invalid
nextUri') demand. -/
theorem c3_invalid_nextUri_throws :
    parseUrl "foo" = none ∧
    landOk true (initialState "select 1") invalidNextUriResult =
      Except.error "Invalid URL: foo" ∧
    (Except.error "Invalid URL: foo" : Except String EngineState) ≠
      Except.error "Presto sent invalid nextUri: foo" := by
  refine ⟨by decide, by decide, by decide⟩

/-! Claim C4. -/

/-- C4 counterexample: a request that times out on the socket is not
retried even though retry budget remains. With `maxRetries = 10` and zero
attempts used, `Client._makeRequest` fails the statement with the ETIMEDOUT
error after a single dispatch and emits no `retry` event, because
`retryable` classifies ETIMEDOUT as not retryable. -/
theorem c4_timeout_not_retried :
    retryable etimedoutError = false ∧
    (0 : Nat) < 10 ∧
    makeRequest "http:" 10 0 [Wire.fail etimedoutError] =
      { result := TResult.err etimedoutError, requests := 1, retries := 0,
        redirects := 0, rest := [] } := by
  refine ⟨by decide, by decide, by decide⟩

/-- C4 (amended): the transport-level retryable outcomes are exactly HTTP
503, ECONNREFUSED and ECONNRESET; a retryable failure with budget remaining
is retried (consuming one dispatch and emitting one `retry` event), while a
socket timeout is never retried — the ETIMEDOUT error reaches the callback
after one dispatch regardless of the remaining budget. -/
theorem c4_retryable_classification (protocol : String) (e : Err)
    (mr a : Nat) (env : List Wire) (hbudget : a < mr)
    (hretry : e.statusCode = some 503 ∨ e.code = some "ECONNREFUSED" ∨
      e.code = some "ECONNRESET") :
    (retryable e = true ↔ (e.code = some "ECONNREFUSED" ∨
      e.code = some "ECONNRESET" ∨ e.statusCode = some 503)) ∧
    makeRequest protocol mr a (Wire.fail e :: env) =
      (let out := makeRequest protocol mr (a + 1) env
       { out with requests := out.requests + 1, retries := out.retries + 1 }) ∧
    makeRequest protocol mr a (Wire.fail etimedoutError :: env) =
      { result := TResult.err etimedoutError, requests := 1, retries := 0,
        redirects := 0, rest := env } := by
  have hclass : retryable e = true ↔ (e.code = some "ECONNREFUSED" ∨
      e.code = some "ECONNRESET" ∨ e.statusCode = some 503) := by
    simp only [retryable, Bool.or_eq_true, beq_iff_eq]
    tauto
  refine ⟨hclass, ?_, ?_⟩
  · have hre : retryable e = true := by
      rw [hclass]
      tauto
    simp only [makeRequest, if_pos (And.intro hbudget hre)]
  · have hre : retryable etimedoutError = false := by decide
    simp only [makeRequest]
    rw [if_neg]
    intro hcontra
    rw [hre] at hcontra
    exact absurd hcontra.2 (by decide)

/-- Witness for c4_retryable_classification at a concrete 503 failure with
one spare retry. -/
theorem c4_retryable_classification_witness :
    (retryable serviceUnavailableError = true ↔
      (serviceUnavailableError.code = some "ECONNREFUSED" ∨
        serviceUnavailableError.code = some "ECONNRESET" ∨
        serviceUnavailableError.statusCode = some 503)) ∧
    makeRequest "http:" 1 0 [Wire.fail serviceUnavailableError] =
      (let out := makeRequest "http:" 1 1 []
       { out with requests := out.requests + 1, retries := out.retries + 1 }) ∧
    makeRequest "http:" 1 0 [Wire.fail etimedoutError] =
      { result := TResult.err etimedoutError, requests := 1, retries := 0,
        redirects := 0, rest := [] } :=
  c4_retryable_classification "http:" serviceUnavailableError 1 0 []
    (by decide) (Or.inl (by decide))

/-! Claim C5. -/

/-- nextUriNoPort is the parsed nextUri of the repository's test 'follows
nextUri with default HTTP port': `http://other-host/three`, carrying no
port. -/
def nextUriNoPort : Url :=
  { protocol := "http:", hostname := "other-host", port := none,
    pathname := "/three", search := "" }

/-- C5 (code_bug evidence): the continuation request built from a nextUri is
a GET for the nextUri's path on the nextUri's host with the original
statement's scheme — but when the nextUri carries no port, `Client.request`
fills in the client's configured port (8080 here), not the protocol default
(80), contradicting the spec and the repository's test 'follows nextUri with
default HTTP port'. -/
theorem c5_continuation_port_uses_client_port :
    parseUrl "http://other-host/three" = some nextUriNoPort ∧
    (applyRequestDefaults defaultCfg (buildContinuation nextUriNoPort)).method
      = "GET" ∧
    (applyRequestDefaults defaultCfg (buildContinuation nextUriNoPort)).path
      = "/three" ∧
    (applyRequestDefaults defaultCfg (buildContinuation nextUriNoPort)).hostname
      = some "other-host" ∧
    (applyRequestDefaults defaultCfg (buildContinuation nextUriNoPort)).protocol
      = some defaultCfg.protocol ∧
    (applyRequestDefaults defaultCfg (buildContinuation nextUriNoPort)).port
      = some 8080 ∧
    (8080 : Nat) ≠ 80 := by
  refine ⟨by decide, by decide, by decide, by decide, by decide, by decide,
    by decide⟩

/-! Claim C6. -/

/-- C6: on a Presto error whose code is one of SERVER_STARTING_UP,
HIVE_METASTORE_ERROR, TOO_MANY_REQUESTS_FAILED, PAGE_TRANSPORT_TIMEOUT,
with no rows received and query-retry budget left, `QueryStream._land`
clears the whole handle (query id, columns, previousPath, buffer,
nextUri/request options back to the fresh POST of /v1/statement) and
schedules a restart after the query-level exponential backoff, which always
waits between 1 s and 5 min; on any other error it marks the stream errored
and surfaces the error. -/
theorem c6_query_retry (sql : String) (mr : Nat) (s : EngineState) (e : Err) :
    ((s.received = false ∧ retryErrorCode e.code = true ∧
        s.backoffAttempts < mr) →
      (landErr sql mr s e =
        ErrLand.retry (backoffDuration 1000 300000 s.backoffAttempts)
          { resetState sql s with backoffAttempts := s.backoffAttempts + 1 } ∧
       (resetState sql s).queryId = none ∧
       (resetState sql s).columns = none ∧
       (resetState sql s).prevPath = none ∧
       (resetState sql s).buffer = [] ∧
       (resetState sql s).received = false ∧
       (resetState sql s).requestOptions = initialRequestOptions sql ∧
       1000 ≤ backoffDuration 1000 300000 s.backoffAttempts ∧
       backoffDuration 1000 300000 s.backoffAttempts ≤ 300000)) ∧
    (¬(s.received = false ∧ retryErrorCode e.code = true ∧
        s.backoffAttempts < mr) →
      landErr sql mr s e = ErrLand.errored e { s with errored := true }) := by
  constructor
  · intro hcond
    refine ⟨?_, rfl, rfl, rfl, rfl, rfl, rfl, ?_, ?_⟩
    · unfold landErr
      rw [if_pos hcond]
    · have h1 : 1000 ≤ 1000 * 2 ^ s.backoffAttempts :=
        Nat.le_mul_of_pos_right 1000 (Nat.pos_pow_of_pos _ (by decide))
      exact le_min h1 (by decide)
    · exact Nat.min_le_right _ _
  · intro hcond
    unfold landErr
    rw [if_neg hcond]

/-- Witness for c6_query_retry: a SERVER_STARTING_UP error before any data
with budget 1 is retried after exactly 1 s, and the same error with budget 0
surfaces. -/
theorem c6_query_retry_witness :
    (landErr "select 1" 1 (initialState "select 1")
        (prestoError { message := "m", errorName := "SERVER_STARTING_UP",
                       errorType := "t" }) =
      ErrLand.retry (backoffDuration 1000 300000 0)
        { resetState "select 1" (initialState "select 1") with
            backoffAttempts := 1 } ∧
      (resetState "select 1" (initialState "select 1")).queryId = none ∧
      (resetState "select 1" (initialState "select 1")).columns = none ∧
      (resetState "select 1" (initialState "select 1")).prevPath = none ∧
      (resetState "select 1" (initialState "select 1")).buffer = [] ∧
      (resetState "select 1" (initialState "select 1")).received = false ∧
      (resetState "select 1" (initialState "select 1")).requestOptions =
        initialRequestOptions "select 1" ∧
      1000 ≤ backoffDuration 1000 300000 0 ∧
      backoffDuration 1000 300000 0 ≤ 300000) ∧
    landErr "select 1" 0 (initialState "select 1")
        (prestoError { message := "m", errorName := "SERVER_STARTING_UP",
                       errorType := "t" }) =
      ErrLand.errored
        (prestoError { message := "m", errorName := "SERVER_STARTING_UP",
                       errorType := "t" })
        { initialState "select 1" with errored := true } := by
  constructor
  · exact (c6_query_retry "select 1" 1 (initialState "select 1") _).1
      ⟨rfl, by decide, by decide⟩
  · exact (c6_query_retry "select 1" 0 (initialState "select 1") _).2
      (by intro h; exact absurd h.2.2 (by decide))

/-! Claim C7. -/

/-- C7: destroying the stream while `upstreamFinished` (or `errored`) is set
closes it without emitting `cancel` and without sending a DELETE; and after
landing a terminal response (one with no nextUri) the handle already has
`upstreamFinished = true`, so even a destroy issued synchronously with the
final row cannot cancel. -/
theorem c7_no_cancel_after_finished (s s2 s0 : EngineState)
    (asObjects : Bool) (r : RespResult)
    (h : s.upstreamFinished = true ∨ s.errored = true)
    (hland : landOk asObjects s0 r = Except.ok s2) (hn : r.nextUri = none) :
    destroyBehavior s = DestroyBehavior.close ∧
    emitsCancel (destroyBehavior s) = false ∧
    sendsDelete (destroyBehavior s) = false ∧
    s2.upstreamFinished = true ∧
    destroyBehavior s2 = DestroyBehavior.close ∧
    emitsCancel (destroyBehavior s2) = false ∧
    sendsDelete (destroyBehavior s2) = false := by
  have hclose : ∀ s' : EngineState,
      s'.upstreamFinished = true ∨ s'.errored = true →
      destroyBehavior s' = DestroyBehavior.close := by
    intro s' h'
    unfold destroyBehavior
    rcases h' with h' | h' <;> rw [h'] <;> simp
  have h2 : s2.upstreamFinished = true :=
    landOk_finished_of_no_nextUri asObjects s0 r s2 hland hn
  refine ⟨hclose s h, ?_, ?_, h2, hclose s2 (Or.inl h2), ?_, ?_⟩ <;>
    rw [hclose _ (by first | exact h | exact Or.inl h2)] <;> rfl

/-- c7KnownIdState is a mid-flight handle with a known query id and the
terminal response not yet landed. -/
def c7KnownIdState : EngineState :=
  { initialState "select 1" with queryId := some "q1" }

/-- c7TerminalResult is a terminal response: no nextUri. -/
def c7TerminalResult : RespResult :=
  { id := some "q1", columns := none, data := [], nextUri := none,
    error := none }

/-- c7FinishedState is `c7KnownIdState` after the terminal response
landed. -/
def c7FinishedState : EngineState :=
  { c7KnownIdState with upstreamFinished := true }

/-- Witness for c7_no_cancel_after_finished: a handle with a known query id
that has just landed its terminal response, destroyed synchronously with the
final row. -/
theorem c7_no_cancel_after_finished_witness :
    destroyBehavior c7FinishedState = DestroyBehavior.close ∧
    emitsCancel (destroyBehavior c7FinishedState) = false ∧
    sendsDelete (destroyBehavior c7FinishedState) = false ∧
    c7FinishedState.upstreamFinished = true ∧
    destroyBehavior c7FinishedState = DestroyBehavior.close ∧
    emitsCancel (destroyBehavior c7FinishedState) = false ∧
    sendsDelete (destroyBehavior c7FinishedState) = false :=
  c7_no_cancel_after_finished c7FinishedState c7FinishedState c7KnownIdState
    true c7TerminalResult (Or.inl rfl) (by decide) rfl

/-! Claim C9. -/

/-- C9: `Client.set` succeeds only when the response had exactly one row
whose `result` field is `true` and the session map now holds the key;
otherwise the callback receives 'Failed to set session property' or 'Did not
receive x-presto-set-session' even though the HTTP exchange succeeded.
`Client.reset` is symmetric, requiring the key's absence. -/
theorem c9_set_reset_validation (rows : List (List (String × Value)))
    (hasKeySet hasKeyReset : Bool) :
    (setCallback rows hasKeySet = none ↔
      (rows.length = 1 ∧ firstRowResult rows = some (Value.bool true) ∧
        hasKeySet = true)) ∧
    (resetCallback rows hasKeyReset = none ↔
      (rows.length = 1 ∧ firstRowResult rows = some (Value.bool true) ∧
        hasKeyReset = false)) ∧
    ((rows.length ≠ 1 ∨ firstRowResult rows ≠ some (Value.bool true)) →
      setCallback rows hasKeySet = some "Failed to set session property") ∧
    (rows.length = 1 → firstRowResult rows = some (Value.bool true) →
      hasKeySet = false →
      setCallback rows hasKeySet = some "Did not receive x-presto-set-session") := by
  unfold setCallback resetCallback
  refine ⟨?_, ?_, ?_, ?_⟩
  · split
    · simp_all
      tauto
    · split <;> simp_all
  · split
    · simp_all
      tauto
    · split <;> simp_all
  · intro hbad
    rw [if_pos hbad]
  · intro h1 h2 h3
    rw [if_neg (by tauto), if_pos h3]

/-- Witness for c9_set_reset_validation at the protocol's single-true-row
response. -/
theorem c9_set_reset_validation_witness :
    (setCallback [[("result", Value.bool true)]] true = none ↔
      ([[("result", Value.bool true)]].length = 1 ∧
        firstRowResult [[("result", Value.bool true)]] =
          some (Value.bool true) ∧ true = true)) ∧
    (resetCallback [[("result", Value.bool true)]] false = none ↔
      ([[("result", Value.bool true)]].length = 1 ∧
        firstRowResult [[("result", Value.bool true)]] =
          some (Value.bool true) ∧ false = false)) ∧
    (([[("result", Value.bool true)]].length ≠ 1 ∨
        firstRowResult [[("result", Value.bool true)]] ≠
          some (Value.bool true)) →
      setCallback [[("result", Value.bool true)]] true =
        some "Failed to set session property") ∧
    ([[("result", Value.bool true)]].length = 1 →
      firstRowResult [[("result", Value.bool true)]] =
        some (Value.bool true) →
      true = false →
      setCallback [[("result", Value.bool true)]] true =
        some "Did not receive x-presto-set-session") :=
  c9_set_reset_validation [[("result", Value.bool true)]] true false

/-! Claim C10. -/

/-- C10: `Client.createRowStream` always hands the `QueryStream` constructor
options with paging disabled and highWaterMark 0, overriding anything the
caller supplied; and (with the buffer drained, as the row stream always is
before a new request) a landed response's rows replace the buffer entirely,
so the stream holds at most the rows of the last HTTP response. -/
theorem c10_row_stream_options (o : StreamOpts) (asObjects : Bool)
    (s s2 : EngineState) (r : RespResult) (hbuf : s.buffer = [])
    (h : landOk asObjects s r = Except.ok s2) :
    (queryStreamConfig (rowStreamOpts o)).paging = false ∧
    (queryStreamConfig (rowStreamOpts o)).highWaterMark = 0 ∧
    s2.buffer.length ≤ r.data.length := by
  refine ⟨rfl, rfl, ?_⟩
  rcases landOk_buffer_cases asObjects s r s2 h hbuf with ⟨_, he⟩ |
    ⟨cols, _, he, _⟩
  · rw [he]
    exact Nat.zero_le _
  · rw [he]
    simp [processPage]

/-- c10CallerOpts are caller options that try to turn paging on and raise
the high-water mark. -/
def c10CallerOpts : StreamOpts :=
  { highWaterMark := some 16, pageSize := some 100, rowFormat := some "array",
    paging := some true }

/-- c10Columns is a one-column schema. -/
def c10Columns : List ColumnMeta := [{ name := "a", type := "varchar" }]

/-- c10Before is a drained handle that already knows its columns. -/
def c10Before : EngineState :=
  { initialState "select 1" with columns := some c10Columns }

/-- c10Response is a terminal response carrying one row. -/
def c10Response : RespResult :=
  { id := none, columns := none, data := [[Value.num 1]], nextUri := none,
    error := none }

/-- c10After is `c10Before` after landing `c10Response`. -/
def c10After : EngineState :=
  { c10Before with received := true,
                   buffer := processPage true c10Columns [[Value.num 1]],
                   upstreamFinished := true }

/-- Witness for c10_row_stream_options at the concrete one-row exchange. -/
theorem c10_row_stream_options_witness :
    (queryStreamConfig (rowStreamOpts c10CallerOpts)).paging = false ∧
    (queryStreamConfig (rowStreamOpts c10CallerOpts)).highWaterMark = 0 ∧
    c10After.buffer.length ≤ c10Response.data.length :=
  c10_row_stream_options c10CallerOpts true c10Before c10After c10Response
    rfl (by decide)

/-! Claim C2. -/

theorem makeRequest_bound (protocol : String) (mr : Nat) :
    ∀ (env : List Wire) (a : Nat),
    (makeRequest protocol mr a env).requests ≤
      (mr - a) + 1 + (makeRequest protocol mr a env).redirects ∧
    (makeRequest protocol mr a env).retries ≤ mr - a := by
  intro env
  induction env with
  | nil => intro a; simp [makeRequest]
  | cons w rest ih =>
    intro a
    cases w with
    | ok r =>
      cases hre : r.error <;> simp [makeRequest, hre]
    | fail e =>
      by_cases hc : a < mr ∧ retryable e = true
      · have hlt := hc.1
        have hr := ih (a + 1)
        simp only [makeRequest, if_pos hc]
        constructor
        · have h1 := hr.1
          omega
        · have h1 := hr.2
          omega
      · simp only [makeRequest, if_neg hc]
        constructor
        · simp
        · simp
    | redirect loc =>
      cases hro : redirectOutcome protocol loc with
      | error e =>
        by_cases hc : a < mr ∧ retryable e = true
        · have hlt := hc.1
          have hr := ih (a + 1)
          simp only [makeRequest, hro, if_pos hc]
          constructor
          · have h1 := hr.1
            omega
          · have h1 := hr.2
            omega
        · simp only [makeRequest, hro, if_neg hc]
          constructor
          · simp
          · simp
      | ok u =>
        have hr := ih a
        simp only [makeRequest, hro]
        constructor
        · have h1 := hr.1
          omega
        · exact hr.2

theorem landErr_retry_inv (sql : String) (mr : Nat) (s : EngineState)
    (e : Err) (d : Nat) (s2 : EngineState)
    (h : landErr sql mr s e = ErrLand.retry d s2) :
    s.received = false ∧ retryErrorCode e.code = true ∧
    s.backoffAttempts < mr ∧
    s2 = { resetState sql s with backoffAttempts := s.backoffAttempts + 1 } := by
  unfold landErr at h
  split at h
  · rename_i hc
    injection h with h1 h2
    exact ⟨hc.1, hc.2.1, hc.2.2, h2.symm⟩
  · exact absurd h (by simp)

theorem run_bounds (asObjects : Bool) (sql protocol : String) (mr : Nat) :
    ∀ (fuel : Nat) (s : EngineState) (env : List Wire),
      (run asObjects sql protocol mr fuel s env).requests ≤
        (1 + mr) * (1 + (run asObjects sql protocol mr fuel s env).queryRetries +
          (run asObjects sql protocol mr fuel s env).continuations) +
        (run asObjects sql protocol mr fuel s env).redirects ∧
      (run asObjects sql protocol mr fuel s env).retryEvents ≤
        mr * (1 + (run asObjects sql protocol mr fuel s env).queryRetries +
          (run asObjects sql protocol mr fuel s env).continuations) ∧
      (run asObjects sql protocol mr fuel s env).queryRetries ≤
        mr - s.backoffAttempts := by
  intro fuel
  induction fuel with
  | zero => intro s env; simp [run]
  | succ fuel ih =>
    intro s env
    have htb := makeRequest_bound protocol mr env 0
    rcases htr : makeRequest protocol mr 0 env with ⟨res, n, k, kr, rest⟩
    rw [htr] at htb
    simp only [Nat.sub_zero] at htb
    cases res with
    | pending =>
      simp only [run, htr]
      refine ⟨?_, ?_, ?_⟩
      · have h1 : (1 + mr) * (1 + 0 + 0) = mr + 1 := by ring
        rw [h1]
        exact htb.1
      · have h1 : mr * (1 + 0 + 0) = mr := by ring
        rw [h1]
        exact htb.2
      · exact Nat.zero_le _
    | err e =>
      rcases hle : landErr sql mr s e with ⟨d, s2⟩ | ⟨e2, s2⟩
      · obtain ⟨hrec, hcode, hlt, hs2⟩ :=
          landErr_retry_inv sql mr s e d s2 hle
        have hr := ih s2 rest
        have ha2 : s2.backoffAttempts = s.backoffAttempts + 1 := by
          rw [hs2]
        simp only [run, htr, hle]
        set out := run asObjects sql protocol mr fuel s2 rest with hout
        refine ⟨?_, ?_, ?_⟩
        · show out.requests + n ≤
            (1 + mr) * (1 + (out.queryRetries + 1) + out.continuations) +
            (out.redirects + kr)
          calc out.requests + n
              ≤ ((1 + mr) * (1 + out.queryRetries + out.continuations) +
                  out.redirects) + (mr + 1 + kr) :=
                Nat.add_le_add hr.1 htb.1
            _ = (1 + mr) * (1 + (out.queryRetries + 1) + out.continuations) +
                (out.redirects + kr) := by ring
        · show out.retryEvents + k ≤
            mr * (1 + (out.queryRetries + 1) + out.continuations)
          calc out.retryEvents + k
              ≤ mr * (1 + out.queryRetries + out.continuations) + mr :=
                Nat.add_le_add hr.2.1 htb.2
            _ = mr * (1 + (out.queryRetries + 1) + out.continuations) := by ring
        · show out.queryRetries + 1 ≤ mr - s.backoffAttempts
          have h1 := hr.2.2
          rw [ha2] at h1
          omega
      · simp only [run, htr, hle]
        refine ⟨?_, ?_, ?_⟩
        · show n ≤ (1 + mr) * (1 + 0 + 0) + kr
          have h1 : (1 + mr) * (1 + 0 + 0) = mr + 1 := by ring
          rw [h1]
          exact htb.1
        · show k ≤ mr * (1 + 0 + 0)
          have h1 : mr * (1 + 0 + 0) = mr := by ring
          rw [h1]
          exact htb.2
        · exact Nat.zero_le _
    | ok r =>
      cases hok : landOk asObjects s r with
      | error msg =>
        simp only [run, htr, hok]
        refine ⟨?_, ?_, ?_⟩
        · show n ≤ (1 + mr) * (1 + 0 + 0) + kr
          have h1 : (1 + mr) * (1 + 0 + 0) = mr + 1 := by ring
          rw [h1]
          exact htb.1
        · show k ≤ mr * (1 + 0 + 0)
          have h1 : mr * (1 + 0 + 0) = mr := by ring
          rw [h1]
          exact htb.2
        · exact Nat.zero_le _
      | ok s2 =>
        simp only [run, htr, hok]
        split
        · refine ⟨?_, ?_, ?_⟩
          · show n ≤ (1 + mr) * (1 + 0 + 0) + kr
            have h1 : (1 + mr) * (1 + 0 + 0) = mr + 1 := by ring
            rw [h1]
            exact htb.1
          · show k ≤ mr * (1 + 0 + 0)
            have h1 : mr * (1 + 0 + 0) = mr := by ring
            rw [h1]
            exact htb.2
          · exact Nat.zero_le _
        · have hr := ih { s2 with buffer := [] } rest
          set out := run asObjects sql protocol mr fuel
            { s2 with buffer := [] } rest with hout
          refine ⟨?_, ?_, ?_⟩
          · show out.requests + n ≤
              (1 + mr) * (1 + out.queryRetries + (out.continuations + 1)) +
              (out.redirects + kr)
            calc out.requests + n
                ≤ ((1 + mr) * (1 + out.queryRetries + out.continuations) +
                    out.redirects) + (mr + 1 + kr) :=
                  Nat.add_le_add hr.1 htb.1
              _ = (1 + mr) * (1 + out.queryRetries + (out.continuations + 1)) +
                  (out.redirects + kr) := by ring
          · show out.retryEvents + k ≤
              mr * (1 + out.queryRetries + (out.continuations + 1))
            calc out.retryEvents + k
                ≤ mr * (1 + out.queryRetries + out.continuations) + mr :=
                  Nat.add_le_add hr.2.1 htb.2
              _ = mr * (1 + out.queryRetries + (out.continuations + 1)) := by
                  ring
          · show out.queryRetries ≤ mr - s.backoffAttempts
            have h1 := hr.2.2
            have h2 : ({ s2 with buffer := [] } : EngineState).backoffAttempts
                = s.backoffAttempts := by
              show s2.backoffAttempts = s.backoffAttempts
              exact landOk_backoffAttempts asObjects s r s2 hok
            rw [h2] at h1
            exact h1

/-- c2StartingUpError is the SERVER_STARTING_UP Presto error body. -/
def c2StartingUpError : PrestoErrJ :=
  { message := "starting up", errorName := "SERVER_STARTING_UP",
    errorType := "EXTERNAL" }

/-- c2ErrResult is a 200 body carrying the transient Presto error. -/
def c2ErrResult : RespResult :=
  { id := some "q1", columns := none, data := [], nextUri := none,
    error := some c2StartingUpError }

/-- c2OkResult is a terminal success body. -/
def c2OkResult : RespResult :=
  { id := some "q2", columns := none, data := [], nextUri := none,
    error := none }

/-- c2Script interleaves a 503 before each 200: the first 200 carries a
transient Presto error, the second completes the statement. -/
def c2Script : List Wire :=
  [Wire.fail serviceUnavailableError, Wire.ok c2ErrResult,
   Wire.fail serviceUnavailableError, Wire.ok c2OkResult]

/-- c2RedirectScript is the repo's 'follows 307 redirect' scenario: one
same-protocol 307 and then a terminal 200. -/
def c2RedirectScript : List Wire :=
  [Wire.redirect (some "http://other-host:8081/v1/statement?foo"),
   Wire.ok c2OkResult]

/-- C2 counterexample: the claimed shared budget of 1 + maxRetries +
continuations requests is violated twice over. With `maxRetries = 1` and no
continuations, the script 503 / SERVER_STARTING_UP / 503 / ok issues four
HTTP requests (each `Client.request` call gets a fresh transport backoff
while query restarts use the stream's separate backoff); and with
`maxRetries = 0` a single 307 redirect issues two requests while emitting no
`retry` event, because redirects consume no retry budget at all. -/
theorem c2_shared_budget_counterexample :
    (run true "select 1" "http:" 1 2 (initialState "select 1")
      c2Script).ending = RunEnd.finished ∧
    (run true "select 1" "http:" 1 2 (initialState "select 1")
      c2Script).requests = 4 ∧
    (run true "select 1" "http:" 1 2 (initialState "select 1")
      c2Script).continuations = 0 ∧
    (run true "select 1" "http:" 1 2 (initialState "select 1")
      c2Script).queryRetries = 1 ∧
    (run true "select 1" "http:" 1 2 (initialState "select 1")
      c2Script).retryEvents = 2 ∧
    ¬((run true "select 1" "http:" 1 2 (initialState "select 1")
        c2Script).requests ≤
      1 + 1 + (run true "select 1" "http:" 1 2 (initialState "select 1")
        c2Script).continuations) ∧
    (run true "select 1" "http:" 0 1 (initialState "select 1")
      c2RedirectScript).ending = RunEnd.finished ∧
    (run true "select 1" "http:" 0 1 (initialState "select 1")
      c2RedirectScript).requests = 2 ∧
    (run true "select 1" "http:" 0 1 (initialState "select 1")
      c2RedirectScript).retryEvents = 0 ∧
    (run true "select 1" "http:" 0 1 (initialState "select 1")
      c2RedirectScript).redirects = 1 ∧
    ¬((run true "select 1" "http:" 0 1 (initialState "select 1")
        c2RedirectScript).requests ≤
      1 + 0 + (run true "select 1" "http:" 0 1 (initialState "select 1")
        c2RedirectScript).continuations) := by
  refine ⟨by decide, by decide, by decide, by decide, by decide, by decide,
    by decide, by decide, by decide, by decide, by decide⟩

/-- C2 (amended): transport retries, query restarts and 307 redirects are
accounted separately. Each HTTP exchange is retried at most maxRetries
times against a fresh transport backoff, the statement is restarted at most
maxRetries times, and a valid same-protocol 307 re-dispatches without
consuming any retry budget, so the total request count is at most
(1 + maxRetries) * (1 + queryRetries + continuations) + redirects; when
maxRetries = 0 no retry of either kind occurs, no `retry` event is emitted,
and the total is at most 1 + continuations + redirects. -/
theorem c2_request_budget (asObjects : Bool) (sql protocol : String)
    (mr fuel : Nat) (env : List Wire) :
    (run asObjects sql protocol mr fuel (initialState sql) env).requests ≤
      (1 + mr) * (1 +
        (run asObjects sql protocol mr fuel (initialState sql) env).queryRetries +
        (run asObjects sql protocol mr fuel (initialState sql) env).continuations) +
      (run asObjects sql protocol mr fuel (initialState sql) env).redirects ∧
    (run asObjects sql protocol mr fuel (initialState sql) env).queryRetries
      ≤ mr ∧
    (mr = 0 →
      (run asObjects sql protocol mr fuel (initialState sql) env).retryEvents
        = 0 ∧
      (run asObjects sql protocol mr fuel (initialState sql) env).queryRetries
        = 0 ∧
      (run asObjects sql protocol mr fuel (initialState sql) env).requests ≤
        1 +
        (run asObjects sql protocol mr fuel (initialState sql) env).continuations +
        (run asObjects sql protocol mr fuel (initialState sql) env).redirects) := by
  have h := run_bounds asObjects sql protocol mr fuel (initialState sql) env
  refine ⟨h.1, by simpa using h.2.2, ?_⟩
  intro h0
  subst h0
  have h1 := h.1
  have h2 := h.2.1
  have h3 : (run asObjects sql protocol 0 fuel (initialState sql)
      env).queryRetries = 0 := by
    have := h.2.2
    simpa using this
  refine ⟨by omega, h3, ?_⟩
  rw [h3] at h1
  have hexp : (1 + 0) * (1 + 0 +
      (run asObjects sql protocol 0 fuel (initialState sql) env).continuations) =
      1 + (run asObjects sql protocol 0 fuel (initialState sql) env).continuations := by
    ring
  rw [hexp] at h1
  omega

/-- Witness for c2_request_budget at maxRetries 0 on the one-redirect
script. -/
theorem c2_request_budget_witness :
    (run true "select 1" "http:" 0 1 (initialState "select 1")
      c2RedirectScript).requests ≤
      (1 + 0) * (1 +
        (run true "select 1" "http:" 0 1 (initialState "select 1")
          c2RedirectScript).queryRetries +
        (run true "select 1" "http:" 0 1 (initialState "select 1")
          c2RedirectScript).continuations) +
      (run true "select 1" "http:" 0 1 (initialState "select 1")
        c2RedirectScript).redirects ∧
    (run true "select 1" "http:" 0 1 (initialState "select 1")
      c2RedirectScript).queryRetries ≤ 0 ∧
    ((run true "select 1" "http:" 0 1 (initialState "select 1")
        c2RedirectScript).retryEvents = 0 ∧
      (run true "select 1" "http:" 0 1 (initialState "select 1")
        c2RedirectScript).queryRetries = 0 ∧
      (run true "select 1" "http:" 0 1 (initialState "select 1")
        c2RedirectScript).requests ≤
        1 +
        (run true "select 1" "http:" 0 1 (initialState "select 1")
          c2RedirectScript).continuations +
        (run true "select 1" "http:" 0 1 (initialState "select 1")
          c2RedirectScript).redirects) := by
  have h := c2_request_budget true "select 1" "http:" 0 1 c2RedirectScript
  exact ⟨h.1, h.2.1, h.2.2 rfl⟩

/-! Claim C8. -/

theorem lookupKey_applySessionUpdate_set (m : List (String × String))
    (kv k : String) :
    lookupKey (applySessionUpdate m (SessionUpdate.set kv)) k =
      if sessionKeyOf kv = k then some kv else lookupKey m k := by
  simp [applySessionUpdate, lookupKey_setKey]

theorem lookupKey_applySessionUpdate_clear (m : List (String × String))
    (k2 k : String) (hnd : (m.map Prod.fst).Nodup) :
    lookupKey (applySessionUpdate m (SessionUpdate.clear k2)) k =
      if k2 = k then none else lookupKey m k := by
  by_cases h : k2 = k
  · subst h
    simp [applySessionUpdate, lookupKey_deleteKey_self m k2 hnd]
  · simp [applySessionUpdate, h, lookupKey_deleteKey_ne m k2 k h]

theorem nodup_applySessionUpdate (m : List (String × String))
    (u : SessionUpdate) (h : (m.map Prod.fst).Nodup) :
    ((applySessionUpdate m u).map Prod.fst).Nodup := by
  cases u with
  | set kv => exact nodup_setKey m _ _ h
  | clear k2 => exact nodup_deleteKey m _ h

theorem nodup_applySessionUpdates (us : List SessionUpdate) :
    ∀ (m : List (String × String)), (m.map Prod.fst).Nodup →
    ((applySessionUpdates m us).map Prod.fst).Nodup := by
  induction us with
  | nil => intro m h; exact h
  | cons u us ih =>
    intro m h
    exact ih (applySessionUpdate m u) (nodup_applySessionUpdate m u h)

theorem lookupKey_applySessionUpdates (us : List SessionUpdate) :
    ∀ (m : List (String × String)) (k : String), (m.map Prod.fst).Nodup →
    lookupKey (applySessionUpdates m us) k =
      match lastEffect k us with
      | some r => r
      | none => lookupKey m k := by
  induction us with
  | nil => intro m k _; rfl
  | cons u us ih =>
    intro m k hnd
    have hnd2 := nodup_applySessionUpdate m u hnd
    have hrec := ih (applySessionUpdate m u) k hnd2
    show lookupKey (applySessionUpdates (applySessionUpdate m u) us) k = _
    rw [hrec]
    cases hle : lastEffect k us with
    | some r => simp [lastEffect, hle]
    | none =>
      simp only [lastEffect, hle]
      cases u with
      | set kv =>
        rw [lookupKey_applySessionUpdate_set]
        by_cases hk : sessionKeyOf kv = k
        · rw [if_pos hk]
          simp [hk]
        · rw [if_neg hk]
          simp [hk]
      | clear k2 =>
        rw [lookupKey_applySessionUpdate_clear m k2 k hnd]
        by_cases hk : k2 = k
        · rw [if_pos hk]
          simp [hk]
        · rw [if_neg hk]
          simp [hk]

theorem session_entry_is_last (us : List SessionUpdate) (k v : String)
    (h : (k, v) ∈ applySessionUpdates [] us) :
    lastEffect k us = some (some v) := by
  have hnd := nodup_applySessionUpdates us [] (by simp)
  have hl := lookupKey_of_mem _ k v hnd h
  have hc := lookupKey_applySessionUpdates us [] k (by simp)
  rw [hl] at hc
  cases hle : lastEffect k us with
  | none =>
    rw [hle] at hc
    exact absurd hc (by simp [lookupKey])
  | some r =>
    rw [hle] at hc
    simp only at hc
    rw [← hc]

theorem session_absent_of_lastEffect (us : List SessionUpdate) (k : String)
    (h : lastEffect k us = none ∨ lastEffect k us = some none) :
    lookupKey (applySessionUpdates [] us) k = none := by
  have hc := lookupKey_applySessionUpdates us [] k (by simp)
  rcases h with h | h <;> rw [h] at hc <;> simpa [lookupKey] using hc

theorem lookupKey_mergeCallerHeaders_session (method : String)
    (src : List (String × String)) :
    ∀ (h : List (String × String)), method ≠ "POST" →
    lookupKey h "x-presto-session" = none →
    lookupKey (mergeCallerHeaders method h src) "x-presto-session" = none := by
  induction src with
  | nil => intro h _ hl; exact hl
  | cons kv src ih =>
    intro h hm hl
    show lookupKey (mergeCallerHeaders method
      (if kv.1.toLower = "x-presto-session" ∧ method ≠ "POST" then h
       else setKey h kv.1.toLower kv.2) src) "x-presto-session" = none
    apply ih _ hm
    by_cases hc : kv.1.toLower = "x-presto-session" ∧ method ≠ "POST"
    · rw [if_pos hc]
      exact hl
    · rw [if_neg hc]
      rw [lookupKey_setKey]
      have hne : kv.1.toLower ≠ "x-presto-session" := by
        intro he
        exact hc ⟨he, hm⟩
      rw [if_neg hne]
      exact hl

theorem lookupKey_baseHeaders_session_ne (c : ClientCfg) (method : String)
    (json : Bool) (session : List (String × String)) (hm : method ≠ "POST") :
    lookupKey (baseHeaders c method json session) "x-presto-session" = none := by
  obtain ⟨host, port, proto, cat, sch, tz, usr, pd, hdrs, mrr⟩ := c
  cases cat <;> cases sch <;> cases tz <;> cases usr <;> cases pd <;>
    cases json <;> simp [baseHeaders, lookupKey_setKey, lookupKey, hm]

theorem lookupKey_baseHeaders_session_post (c : ClientCfg) (json : Bool)
    (session : List (String × String)) :
    lookupKey (baseHeaders c "POST" json session) "x-presto-session" =
      serializeSession session := by
  obtain ⟨host, port, proto, cat, sch, tz, usr, pd, hdrs, mrr⟩ := c
  cases hs : session.isEmpty <;>
    cases cat <;> cases sch <;> cases tz <;> cases usr <;> cases pd <;>
      cases json <;>
    simp [baseHeaders, serializeSession, lookupKey_setKey, lookupKey, hs]

/-- C8: after any sequence of successful SET SESSION / RESET SESSION
responses, the session map has pairwise-distinct keys; each stored pair is
the exact last `k=v` string received for its key; keys whose history ends
untouched or with a reset are absent; the `x-presto-session` header of the
next POST (with no caller headers in play) equals the serialized session,
which is the comma-join of the stored values in insertion order and is
absent when the map is empty; and the header is never attached to a
non-POST request, whatever caller headers are supplied. -/
theorem c8_session_serialization (updates : List SessionUpdate)
    (c : ClientCfg) (method : String) (json : Bool)
    (reqHeaders : List (String × String)) (hm : method ≠ "POST")
    (hch : c.headers = []) :
    ((applySessionUpdates [] updates).map Prod.fst).Nodup ∧
    (∀ k v, (k, v) ∈ applySessionUpdates [] updates →
      lastEffect k updates = some (some v)) ∧
    (∀ k, lastEffect k updates = none ∨ lastEffect k updates = some none →
      lookupKey (applySessionUpdates [] updates) k = none) ∧
    lookupKey
      (buildHeaders c "POST" json (applySessionUpdates [] updates) [])
      "x-presto-session" =
      serializeSession (applySessionUpdates [] updates) ∧
    lookupKey
      (buildHeaders c method json (applySessionUpdates [] updates) reqHeaders)
      "x-presto-session" = none := by
  refine ⟨nodup_applySessionUpdates updates [] (by simp),
    fun k v h => session_entry_is_last updates k v h,
    fun k h => session_absent_of_lastEffect updates k h, ?_, ?_⟩
  · show lookupKey (mergeCallerHeaders "POST"
      (mergeCallerHeaders "POST"
        (baseHeaders c "POST" json (applySessionUpdates [] updates))
        c.headers) []) "x-presto-session" = _
    rw [hch]
    show lookupKey
      (baseHeaders c "POST" json (applySessionUpdates [] updates))
      "x-presto-session" = _
    exact lookupKey_baseHeaders_session_post c json _
  · exact lookupKey_mergeCallerHeaders_session method reqHeaders _ hm
      (lookupKey_mergeCallerHeaders_session method c.headers _ hm
        (lookupKey_baseHeaders_session_ne c method json _ hm))

/-- c8Updates is a concrete session history: two properties set, one
overwritten, one reset. -/
def c8Updates : List SessionUpdate :=
  [SessionUpdate.set "a=1", SessionUpdate.set "b=2", SessionUpdate.set "a=3",
   SessionUpdate.clear "b"]

/-- Witness for c8_session_serialization at the concrete history
`SET a=1; SET b=2; SET a=3; RESET b` on a default client and a GET
request. -/
theorem c8_session_serialization_witness :
    ((applySessionUpdates [] c8Updates).map Prod.fst).Nodup ∧
    (∀ k v, (k, v) ∈ applySessionUpdates [] c8Updates →
      lastEffect k c8Updates = some (some v)) ∧
    (∀ k, lastEffect k c8Updates = none ∨ lastEffect k c8Updates = some none →
      lookupKey (applySessionUpdates [] c8Updates) k = none) ∧
    lookupKey
      (buildHeaders defaultCfg "POST" true (applySessionUpdates [] c8Updates)
        [])
      "x-presto-session" =
      serializeSession (applySessionUpdates [] c8Updates) ∧
    lookupKey
      (buildHeaders defaultCfg "GET" true (applySessionUpdates [] c8Updates)
        [("X-Presto-Session", "rogue"), ("Other", "x")])
      "x-presto-session" = none :=
  c8_session_serialization c8Updates defaultCfg "GET" true
    [("X-Presto-Session", "rogue"), ("Other", "x")] (by decide) rfl

/-! Claim C1: equation lemmas for `run`, refinement of the row
transformation to the spec's words, and the end-to-end row-stream
theorem. -/

theorem run_succ_pending (asObjects : Bool) (sql protocol : String)
    (mr fuel : Nat) (s : EngineState) (env : List Wire) (n k kr : Nat)
    (rest : List Wire)
    (h1 : makeRequest protocol mr 0 env =
      { result := TResult.pending, requests := n, retries := k,
        redirects := kr, rest := rest }) :
    run asObjects sql protocol mr (fuel + 1) s env =
      { ending := RunEnd.pending, requests := n, retryEvents := k,
        queryRetries := 0, continuations := 0, redirects := kr,
        emitted := [], landed := [], final := s } := by
  simp only [run, h1]

theorem run_succ_err_fail (asObjects : Bool) (sql protocol : String)
    (mr fuel : Nat) (s : EngineState) (env : List Wire) (n k kr : Nat)
    (rest : List Wire) (e e2 : Err) (s2 : EngineState)
    (h1 : makeRequest protocol mr 0 env =
      { result := TResult.err e, requests := n, retries := k,
        redirects := kr, rest := rest })
    (h2 : landErr sql mr s e = ErrLand.errored e2 s2) :
    run asObjects sql protocol mr (fuel + 1) s env =
      { ending := RunEnd.failed e2, requests := n, retryEvents := k,
        queryRetries := 0, continuations := 0, redirects := kr,
        emitted := [], landed := [], final := s2 } := by
  simp only [run, h1, h2]

theorem run_succ_err_retry (asObjects : Bool) (sql protocol : String)
    (mr fuel : Nat) (s : EngineState) (env : List Wire) (n k kr : Nat)
    (rest : List Wire) (e : Err) (d : Nat) (s2 : EngineState)
    (h1 : makeRequest protocol mr 0 env =
      { result := TResult.err e, requests := n, retries := k,
        redirects := kr, rest := rest })
    (h2 : landErr sql mr s e = ErrLand.retry d s2) :
    run asObjects sql protocol mr (fuel + 1) s env =
      { run asObjects sql protocol mr fuel s2 rest with
          requests :=
            (run asObjects sql protocol mr fuel s2 rest).requests + n,
          retryEvents :=
            (run asObjects sql protocol mr fuel s2 rest).retryEvents + k,
          queryRetries :=
            (run asObjects sql protocol mr fuel s2 rest).queryRetries + 1,
          redirects :=
            (run asObjects sql protocol mr fuel s2 rest).redirects + kr } := by
  simp only [run, h1, h2]

theorem run_succ_ok_crashed (asObjects : Bool) (sql protocol : String)
    (mr fuel : Nat) (s : EngineState) (env : List Wire) (n k kr : Nat)
    (rest : List Wire) (r : RespResult) (msg : String)
    (h1 : makeRequest protocol mr 0 env =
      { result := TResult.ok r, requests := n, retries := k,
        redirects := kr, rest := rest })
    (h2 : landOk asObjects s r = Except.error msg) :
    run asObjects sql protocol mr (fuel + 1) s env =
      { ending := RunEnd.crashed msg, requests := n, retryEvents := k,
        queryRetries := 0, continuations := 0, redirects := kr,
        emitted := [], landed := [], final := s } := by
  simp only [run, h1, h2]

theorem run_succ_ok_finished (asObjects : Bool) (sql protocol : String)
    (mr fuel : Nat) (s : EngineState) (env : List Wire) (n k kr : Nat)
    (rest : List Wire) (r : RespResult) (s2 : EngineState)
    (h1 : makeRequest protocol mr 0 env =
      { result := TResult.ok r, requests := n, retries := k,
        redirects := kr, rest := rest })
    (h2 : landOk asObjects s r = Except.ok s2)
    (h3 : s2.upstreamFinished = true) :
    run asObjects sql protocol mr (fuel + 1) s env =
      { ending := RunEnd.finished, requests := n, retryEvents := k,
        queryRetries := 0, continuations := 0, redirects := kr,
        emitted := s2.buffer, landed := [r],
        final := { s2 with buffer := [] } } := by
  simp only [run, h1, h2]
  rw [if_pos
    (show ({ s2 with buffer := [] } : EngineState).upstreamFinished = true
      from h3)]

theorem run_succ_ok_next (asObjects : Bool) (sql protocol : String)
    (mr fuel : Nat) (s : EngineState) (env : List Wire) (n k kr : Nat)
    (rest : List Wire) (r : RespResult) (s2 : EngineState)
    (h1 : makeRequest protocol mr 0 env =
      { result := TResult.ok r, requests := n, retries := k,
        redirects := kr, rest := rest })
    (h2 : landOk asObjects s r = Except.ok s2)
    (h3 : s2.upstreamFinished = false) :
    run asObjects sql protocol mr (fuel + 1) s env =
      { run asObjects sql protocol mr fuel { s2 with buffer := [] } rest with
          requests :=
            (run asObjects sql protocol mr fuel { s2 with buffer := [] }
              rest).requests + n,
          retryEvents :=
            (run asObjects sql protocol mr fuel { s2 with buffer := [] }
              rest).retryEvents + k,
          continuations :=
            (run asObjects sql protocol mr fuel { s2 with buffer := [] }
              rest).continuations + 1,
          redirects :=
            (run asObjects sql protocol mr fuel { s2 with buffer := [] }
              rest).redirects + kr,
          emitted := s2.buffer ++
            (run asObjects sql protocol mr fuel { s2 with buffer := [] }
              rest).emitted,
          landed := r ::
            (run asObjects sql protocol mr fuel { s2 with buffer := [] }
              rest).landed } := by
  simp only [run, h1, h2]
  rw [if_neg
    (show ¬({ s2 with buffer := [] } : EngineState).upstreamFinished = true by
      show ¬s2.upstreamFinished = true
      rw [h3]
      simp)]

theorem run_columns_stable (asObjects : Bool) (sql protocol : String)
    (mr : Nat) :
    ∀ (fuel : Nat) (s : EngineState) (env : List Wire) (c : List ColumnMeta),
      s.received = true → s.columns = some c →
      (run asObjects sql protocol mr fuel s env).ending = RunEnd.finished →
      (run asObjects sql protocol mr fuel s env).final.columns = some c := by
  intro fuel
  induction fuel with
  | zero => intro s env c _ _ hfin; simp [run] at hfin
  | succ fuel ih =>
    intro s env c hrcv hcols hfin
    rcases htr : makeRequest protocol mr 0 env with ⟨res, n, k, kr, rest⟩
    cases res with
    | pending =>
      rw [run_succ_pending asObjects sql protocol mr fuel s env n k kr rest
        htr] at hfin
      exact absurd hfin (by simp)
    | err e =>
      rcases hle : landErr sql mr s e with ⟨d, s2⟩ | ⟨e2, s2⟩
      · obtain ⟨hrecf, _, _, _⟩ := landErr_retry_inv sql mr s e d s2 hle
        rw [hrcv] at hrecf
        exact absurd hrecf (by simp)
      · rw [run_succ_err_fail asObjects sql protocol mr fuel s env n k kr
          rest e e2 s2 htr hle] at hfin
        exact absurd hfin (by simp)
    | ok r =>
      cases hok : landOk asObjects s r with
      | error msg =>
        rw [run_succ_ok_crashed asObjects sql protocol mr fuel s env n k kr
          rest r msg htr hok] at hfin
        exact absurd hfin (by simp)
      | ok s2 =>
        have hc2 : s2.columns = some c :=
          landOk_columns_mono asObjects s r s2 c hok hcols
        have hr2 : s2.received = true :=
          landOk_received_mono asObjects s r s2 hok hrcv
        cases hup : s2.upstreamFinished with
        | true =>
          rw [run_succ_ok_finished asObjects sql protocol mr fuel s env n k
            kr rest r s2 htr hok hup]
          exact hc2
        | false =>
          rw [run_succ_ok_next asObjects sql protocol mr fuel s env n k kr
            rest r s2 htr hok hup] at hfin ⊢
          exact ih { s2 with buffer := [] } rest c hr2 hc2 hfin

theorem run_emitted_eq (asObjects : Bool) (sql protocol : String)
    (mr : Nat) :
    ∀ (fuel : Nat) (s : EngineState) (env : List Wire),
      s.buffer = [] →
      (run asObjects sql protocol mr fuel s env).ending = RunEnd.finished →
      (run asObjects sql protocol mr fuel s env).emitted =
        processPage asObjects
          ((run asObjects sql protocol mr fuel s env).final.columns.getD [])
          (((run asObjects sql protocol mr fuel s env).landed.map
            RespResult.data).flatten) := by
  intro fuel
  induction fuel with
  | zero => intro s env _ hfin; simp [run] at hfin
  | succ fuel ih =>
    intro s env hbuf hfin
    rcases htr : makeRequest protocol mr 0 env with ⟨res, n, k, kr, rest⟩
    cases res with
    | pending =>
      rw [run_succ_pending asObjects sql protocol mr fuel s env n k kr rest
        htr] at hfin
      exact absurd hfin (by simp)
    | err e =>
      rcases hle : landErr sql mr s e with ⟨d, s2⟩ | ⟨e2, s2⟩
      · rw [run_succ_err_retry asObjects sql protocol mr fuel s env n k kr
          rest e d s2 htr hle] at hfin ⊢
        have hs2buf : s2.buffer = [] := by
          obtain ⟨_, _, _, hs2⟩ := landErr_retry_inv sql mr s e d s2 hle
          rw [hs2]
          rfl
        exact ih s2 rest hs2buf hfin
      · rw [run_succ_err_fail asObjects sql protocol mr fuel s env n k kr
          rest e e2 s2 htr hle] at hfin
        exact absurd hfin (by simp)
    | ok r =>
      cases hok : landOk asObjects s r with
      | error msg =>
        rw [run_succ_ok_crashed asObjects sql protocol mr fuel s env n k kr
          rest r msg htr hok] at hfin
        exact absurd hfin (by simp)
      | ok s2 =>
        cases hup : s2.upstreamFinished with
        | true =>
          rw [run_succ_ok_finished asObjects sql protocol mr fuel s env n k
            kr rest r s2 htr hok hup]
          show s2.buffer = processPage asObjects (s2.columns.getD [])
            (([r].map RespResult.data).flatten)
          rcases landOk_buffer_cases asObjects s r s2 hok hbuf with
            ⟨hd, hb⟩ | ⟨cols, hc, hb, _⟩
          · rw [hb]
            simp [processPage, hd]
          · rw [hb, hc]
            simp [processPage]
        | false =>
          rw [run_succ_ok_next asObjects sql protocol mr fuel s env n k kr
            rest r s2 htr hok hup] at hfin ⊢
          show s2.buffer ++
              (run asObjects sql protocol mr fuel { s2 with buffer := [] }
                rest).emitted
              = processPage asObjects
                ((run asObjects sql protocol mr fuel { s2 with buffer := [] }
                  rest).final.columns.getD [])
                ((List.map RespResult.data
                  (r :: (run asObjects sql protocol mr fuel
                    { s2 with buffer := [] } rest).landed)).flatten)
          have hfin2 : (run asObjects sql protocol mr fuel
              { s2 with buffer := [] } rest).ending = RunEnd.finished := hfin
          have hrec := ih { s2 with buffer := [] } rest rfl hfin2
          rcases landOk_buffer_cases asObjects s r s2 hok hbuf with
            ⟨hd, hb⟩ | ⟨cols, hc, hb, hrcv⟩
          · rw [hb, hrec]
            simp [hd]
          · have hcols3 : ({ s2 with buffer := [] } : EngineState).columns =
                some cols := hc
            have hrcv3 : ({ s2 with buffer := [] } : EngineState).received =
                true := hrcv
            have hfc := run_columns_stable asObjects sql protocol mr fuel
              { s2 with buffer := [] } rest cols hrcv3 hcols3 hfin2
            rw [hb, hrec, hfc]
            simp [processPage]

theorem deserialize_eq_spec (c : ColumnMeta) (v : Value) :
    deserialize c v = specDeserialize c.type v := by
  cases v <;> simp [deserialize, specDeserialize]

theorem deserializeRow_eq_spec : ∀ (cols : List ColumnMeta)
    (row : List Value), row.length = cols.length →
    deserializeRow cols row = specRowArray cols row := by
  intro cols
  induction cols with
  | nil =>
    intro row h
    cases row with
    | nil => rfl
    | cons v vs => simp at h
  | cons c cs ih =>
    intro row h
    cases row with
    | nil => simp at h
    | cons v vs =>
      show deserialize c v :: deserializeRow cs vs = _
      rw [deserialize_eq_spec]
      show _ = specDeserialize c.type v :: specRowArray cs vs
      rw [ih vs (by simpa using h)]

theorem objectRowAux_eq_foldl : ∀ (pairs : List (ColumnMeta × Value))
    (obj : List (String × Value)),
    objectRowAux obj pairs = pairs.foldl
      (fun o cv => setKey o cv.1.name (specDeserialize cv.1.type cv.2)) obj := by
  intro pairs
  induction pairs with
  | nil => intro obj; rfl
  | cons cv rest ih =>
    intro obj
    obtain ⟨c, v⟩ := cv
    show objectRowAux (setKey obj c.name (deserialize c v)) rest = _
    rw [deserialize_eq_spec]
    exact ih _

theorem objectRow_eq_spec (cols : List ColumnMeta) (row : List Value) :
    objectRow cols row = specRowObject cols row :=
  objectRowAux_eq_foldl (cols.zip row) []

theorem processRow_eq_spec (asObjects : Bool) (cols : List ColumnMeta)
    (row : List Value) (h : row.length = cols.length) :
    processRow asObjects cols row = specRow asObjects cols row := by
  unfold processRow specRow
  cases asObjects
  · simp [deserializeRow_eq_spec cols row h]
  · simp [objectRow_eq_spec]

theorem mem_keys_foldl_setKey (f : ColumnMeta × Value → String)
    (g : ColumnMeta × Value → Value) :
    ∀ (pairs : List (ColumnMeta × Value)) (obj : List (String × Value))
      (k : String),
    (k ∈ (pairs.foldl (fun o cv => setKey o (f cv) (g cv)) obj).map Prod.fst ↔
      k ∈ obj.map Prod.fst ∨ k ∈ pairs.map f) := by
  intro pairs
  induction pairs with
  | nil => intro obj k; simp
  | cons cv rest ih =>
    intro obj k
    simp only [List.foldl_cons, List.map_cons, List.mem_cons]
    rw [ih, mem_map_fst_setKey]
    tauto

theorem specRowObject_keys (cols : List ColumnMeta) (row : List Value)
    (k : String) (h : cols.length ≤ row.length) :
    (k ∈ (specRowObject cols row).map Prod.fst ↔
      k ∈ cols.map ColumnMeta.name) := by
  unfold specRowObject
  rw [mem_keys_foldl_setKey (fun cv => cv.1.name)
    (fun cv => specDeserialize cv.1.type cv.2)]
  have hz : (cols.zip row).map (fun cv : ColumnMeta × Value => cv.1.name) =
      cols.map ColumnMeta.name := by
    have h1 : (cols.zip row).map (fun cv : ColumnMeta × Value => cv.1.name) =
        ((cols.zip row).map Prod.fst).map ColumnMeta.name := by
      rw [List.map_map]
      rfl
    rw [h1, List.map_fst_zip cols row h]
  rw [hz]
  simp

/-- C1: for every statement run that ends successfully, the rows the stream
emitted are, in order, the flattened `result.data` arrays of the final
attempt's responses, each transformed exactly as §4.4 describes (non-null
timestamp values parsed as instants after replacing the first space with 'T'
and appending 'Z', everything else unchanged); and in object mode every
emitted row's key set equals the set of column names. -/
theorem c1_emitted_rows (asObjects : Bool) (sql protocol : String)
    (mr fuel : Nat) (env : List Wire)
    (hfin : (run asObjects sql protocol mr fuel (initialState sql)
      env).ending = RunEnd.finished)
    (hlen : ∀ r ∈ (run asObjects sql protocol mr fuel (initialState sql)
        env).landed,
      ∀ row ∈ r.data, row.length =
        ((run asObjects sql protocol mr fuel (initialState sql)
          env).final.columns.getD []).length) :
    (run asObjects sql protocol mr fuel (initialState sql) env).emitted =
      (((run asObjects sql protocol mr fuel (initialState sql) env).landed.map
        RespResult.data).flatten).map
        (specRow asObjects
          ((run asObjects sql protocol mr fuel (initialState sql)
            env).final.columns.getD [])) ∧
    (asObjects = true →
      ∀ rowObj ∈ (run asObjects sql protocol mr fuel (initialState sql)
          env).emitted,
        ∃ kvs, rowObj = Row.obj kvs ∧
          (kvs.map Prod.fst).toFinset =
            (((run asObjects sql protocol mr fuel (initialState sql)
              env).final.columns.getD []).map ColumnMeta.name).toFinset) := by
  have hemit := run_emitted_eq asObjects sql protocol mr fuel
    (initialState sql) env rfl hfin
  have hmem : ∀ row ∈ (((run asObjects sql protocol mr fuel (initialState sql)
      env).landed.map RespResult.data).flatten), row.length =
      ((run asObjects sql protocol mr fuel (initialState sql)
        env).final.columns.getD []).length := by
    intro row hrow
    rw [List.mem_flatten] at hrow
    obtain ⟨l, hl, hrow2⟩ := hrow
    rw [List.mem_map] at hl
    obtain ⟨r, hr, hlr⟩ := hl
    exact hlen r hr row (hlr ▸ hrow2)
  constructor
  · rw [hemit]
    unfold processPage
    apply List.map_congr_left
    intro row hrow
    exact processRow_eq_spec asObjects _ row (hmem row hrow)
  · intro hobj rowObj hrow
    rw [hemit] at hrow
    unfold processPage at hrow
    rw [List.mem_map] at hrow
    obtain ⟨row, hrowmem, hre⟩ := hrow
    subst hobj
    refine ⟨objectRow
      ((run true sql protocol mr fuel (initialState sql)
        env).final.columns.getD [])
      row, ?_, ?_⟩
    · rw [← hre]
      show processRow true _ row = _
      unfold processRow
      simp
    · rw [objectRow_eq_spec]
      ext a
      simp only [List.mem_toFinset]
      exact specRowObject_keys _ row a (le_of_eq (hmem row hrowmem).symm)

/-- c1Columns is a two-column schema with a timestamp column. -/
def c1Columns : List ColumnMeta :=
  [{ name := "ts", type := "timestamp" }, { name := "b", type := "varchar" }]

/-- c1Script is a two-response chain: the first response carries the
columns, one row and a nextUri; the second carries one more row and ends the
statement. -/
def c1Script : List Wire :=
  [Wire.ok { id := some "q1", columns := some c1Columns,
             data := [[Value.str "2020-09-05 10:01:48.123", Value.num 7]],
             nextUri := some "http://localhost:8080/two", error := none },
   Wire.ok { id := none, columns := none,
             data := [[Value.null, Value.num 8]], nextUri := none,
             error := none }]

/-- Witness for c1_emitted_rows on the two-page timestamp script. -/
theorem c1_emitted_rows_witness :
    (run true "select 1" "http:" 10 3 (initialState "select 1")
      c1Script).emitted =
      (((run true "select 1" "http:" 10 3 (initialState "select 1")
        c1Script).landed.map RespResult.data).flatten).map
        (specRow true
          ((run true "select 1" "http:" 10 3 (initialState "select 1")
            c1Script).final.columns.getD [])) ∧
    (true = true →
      ∀ rowObj ∈ (run true "select 1" "http:" 10 3 (initialState "select 1")
          c1Script).emitted,
        ∃ kvs, rowObj = Row.obj kvs ∧
          (kvs.map Prod.fst).toFinset =
            (((run true "select 1" "http:" 10 3 (initialState "select 1")
              c1Script).final.columns.getD []).map
              ColumnMeta.name).toFinset) :=
  c1_emitted_rows true "select 1" "http:" 10 3 c1Script (by decide)
    (by decide)

end Lento
